import Mathlib

/-!
# Verification of the osu! gameplay judgement core (`GameState.ts`)

This file gives a shallow embedding of the frame evaluator in
`src/libs/osu/core/src/gameplay/GameState.ts` and proves/refutes the frozen
claims about it.

Modelling conventions:

* JavaScript `number` values (times, coordinates, radii) are modelled as `ℚ`.
  All arithmetic the evaluator performs (`+`, `-`, `*`, `/`, `min`,
  comparisons, `Math.ceil`, `Math.abs`) is exact on the inputs the claims
  exercise, so `ℚ` is a faithful carrier.
* `Vec2.distance(a, b) ⋈ r` comparisons are embedded in squared form
  (`distSq a b ⋈ r * r`), which is equivalent for the nonnegative radii the
  game uses and keeps every definition executable (no square roots).
* A JavaScript `Map<string, V>` is an insertion-ordered association list
  `List (String × V)`; `set` updates the existing entry in place (preserving
  its position) or appends, `get` returns the first match, `delete` removes
  the entry.  A `Set<string>` is an insertion-ordered `List String` without
  duplicates.  Iteration order of both is list order, exactly as in JS.
* `Array.prototype.sort` with the comparator
  `(i, j) => hitTime i - hitTime j` is a stable sort by `hitTime`
  (ECMAScript 2019 requires sort stability); it is embedded as a stable
  insertion sort.
* Lookups `beatmap.getHitCircle/getSlider/getSpinner` throw on unknown ids in
  the source (`UnknownHitObjectId`, fatal).  The embedding returns `Option`
  and the evaluator skips a `none` lookup; the claims only exercise states in
  which every id resolves, where the two semantics agree.
-/

set_option allowUnsafeReducibility true in
attribute [semireducible] Rat.add Rat.sub Rat.mul Rat.div Rat.neg Rat.inv Rat.normalize Rat.maybeNormalize

set_option maxRecDepth 4000

/-- A 2D position (`Position` from `@rewind/osu/math`). -/
structure Position where
  x : ℚ
  y : ℚ
deriving DecidableEq

/-- Modelled from the spec: Euclidean distance, kept in squared form
(`distance(a,b) ≤ r ↔ distSq a b ≤ r*r` for `0 ≤ r`).  The `Vec2.distance`
helper lives in `@rewind/osu/math`, outside `src/`. -/
def Vec2.distSq (a b : Position) : ℚ :=
  (a.x - b.x) * (a.x - b.x) + (a.y - b.y) * (a.y - b.y)

/-- Modelled from the spec: linear interpolation between two positions
(`lerp(previous_position, cursor_position, f)`); `Vec2.interpolate` lives in
`@rewind/osu/math`, outside `src/`. -/
def Vec2.interpolate (a b : Position) (f : ℚ) : Position :=
  ⟨a.x + (b.x - a.x) * f, a.y + (b.y - a.y) * f⟩

/-- `Vec2.Zero`. -/
def Vec2.Zero : Position := ⟨0, 0⟩

/-- `export const NOT_PRESSING = +727727727;` (GameState.ts line 33). -/
def NOT_PRESSING : ℚ := 727727727

/-- The two replay buttons (`OsuAction` from `../replays/Replay`). -/
inductive OsuAction where
  | leftButton
  | rightButton
deriving DecidableEq

/-- One replay frame: absolute time, cursor position, held buttons. -/
structure ReplayFrame where
  time : ℚ
  position : Position
  actions : List OsuAction
deriving DecidableEq

/-- `MainHitObjectVerdict` (from `./Verdicts`): the four verdicts. -/
inductive MainHitObjectVerdict where
  | GREAT
  | OK
  | MEH
  | MISS
deriving DecidableEq

/-- `HitCircleMissReason` (GameState.ts lines 118-128). -/
inductive HitCircleMissReason where
  | TIME_EXPIRED
  | HIT_TOO_EARLY
  | FORCE_MISS_NOTELOCK
  | SLIDER_FINISHED_FASTER
deriving DecidableEq

/-- `HitCircleState` (GameState.ts lines 131-134): the source type is
`{judgementTime} & ({type: verdict} | {type: "MISS"; missReason})`; it is
flattened here with `missReason` populated exactly when the source variant
carries one. -/
structure HitCircleState where
  judgementTime : ℚ
  type : MainHitObjectVerdict
  missReason : Option HitCircleMissReason
deriving DecidableEq

/-- `CheckPointState` (GameState.ts lines 138-140). -/
structure CheckPointState where
  hit : Bool
deriving DecidableEq

/-- `SliderBodyState` (GameState.ts lines 142-144). -/
structure SliderBodyState where
  isTracking : Bool
deriving DecidableEq

/-- `SpinnerState` (GameState.ts lines 146-149). -/
structure SpinnerState where
  wholeSpinCount : ℤ
deriving DecidableEq

/-- A hit circle (`HitCircle` from `../hitobjects/HitCircle`): stable id,
absolute position, radius, `hitTime`, `spawnTime` (spec §3). -/
structure HitCircle where
  id : String
  position : Position
  radius : ℚ
  hitTime : ℚ
  spawnTime : ℚ

/-- One slider checkpoint (tick / repeat / tail): stable id and absolute
`hitTime` (spec §3). -/
structure SliderCheckPoint where
  id : String
  hitTime : ℚ

/-- A slider (`Slider` from `../hitobjects/Slider`): a head that is itself a
`HitCircle`, an ordered checkpoint list, timing data, a radius, and the
sampled ball-position function (spec §3). -/
structure Slider where
  id : String
  head : HitCircle
  checkPoints : List SliderCheckPoint
  startTime : ℚ
  endTime : ℚ
  duration : ℚ
  radius : ℚ
  ballPositionAt : ℚ → Position
  spawnTime : ℚ

/-- A spinner (`Spinner` from `../hitobjects/Spinner`). -/
structure Spinner where
  id : String
  startTime : ℚ
  endTime : ℚ
  spawnTime : ℚ

/-- The tagged hit-object variant (spec §3; the source uses run-time
`instanceof` tests over the three classes). -/
inductive HitObject where
  | circle (c : HitCircle)
  | slider (s : Slider)
  | spinner (sp : Spinner)

/-- `spawnTime` of a hit object, used by the spawn loop
(`checkNewAliveHitObjects`). -/
def HitObject.spawnTime : HitObject → ℚ
  | .circle c => c.spawnTime
  | .slider s => s.spawnTime
  | .spinner sp => sp.spawnTime

/-- The materialized beatmap: hit objects sorted by spawn time
(`beatmap.hitObjects`). -/
structure Beatmap where
  hitObjects : List HitObject

/-- Modelled from the spec: `beatmap.getHitCircle(id)` — id lookup over
standalone circles and slider heads ("the head's id is still registered in
the same `alive_hit_circles` set … and lookup goes through the beatmap",
spec §9).  The `Beatmap` class lives outside `src/`. -/
def Beatmap.getHitCircle (b : Beatmap) (id : String) : Option HitCircle :=
  b.hitObjects.findSome? fun
    | .circle c => if c.id = id then some c else none
    | .slider s => if s.head.id = id then some s.head else none
    | .spinner _ => none

/-- Modelled from the spec: `beatmap.getSlider(id)` (id lookup; the `Beatmap`
class lives outside `src/`). -/
def Beatmap.getSlider (b : Beatmap) (id : String) : Option Slider :=
  b.hitObjects.findSome? fun
    | .slider s => if s.id = id then some s else none
    | _ => none

/-- Modelled from the spec: `beatmap.getSpinner(id)` (id lookup; the
`Beatmap` class lives outside `src/`). -/
def Beatmap.getSpinner (b : Beatmap) (id : String) : Option Spinner :=
  b.hitObjects.findSome? fun
    | .spinner sp => if sp.id = id then some sp else none
    | _ => none

/-- JS `Map.get`: the entry with the key (first match). -/
def jsGet {V : Type} : List (String × V) → String → Option V
  | [], _ => none
  | e :: rest, k => if e.1 = k then some e.2 else jsGet rest k

/-- JS `Map.set`: update the existing entry in place (keeping its position,
as JS Maps do) or append a new one. -/
def jsSet {V : Type} : List (String × V) → String → V → List (String × V)
  | [], k, v => [(k, v)]
  | e :: rest, k, v => if e.1 = k then (k, v) :: rest else e :: jsSet rest k v

/-- JS `Map.delete`: remove the entry with the key. -/
def jsDel {V : Type} : List (String × V) → String → List (String × V)
  | [], _ => []
  | e :: rest, k => if e.1 = k then jsDel rest k else e :: jsDel rest k

/-- JS `Set.add`: append if absent. -/
def jsAdd (s : List String) (k : String) : List String :=
  if k ∈ s then s else s ++ [k]

/-- JS `Set.delete`. -/
def jsSetDel : List String → String → List String
  | [], _ => []
  | e :: rest, k => if e = k then jsSetDel rest k else e :: jsSetDel rest k

/-- `NoteLockStyle` (GameState.ts lines 16-20). -/
inductive NoteLockStyle where
  | NONE
  | STABLE
  | LAZER
deriving DecidableEq

/-- `GameState` (GameState.ts lines 152-184), field for field. -/
structure GameState where
  currentTime : ℚ
  cursorPosition : Position
  hitCircleState : List (String × HitCircleState)
  sliderBodyState : List (String × SliderBodyState)
  checkPointState : List (String × CheckPointState)
  sliderJudgement : List (String × MainHitObjectVerdict)
  spinnerState : List (String × SpinnerState)
  currentCombo : ℚ
  maxCombo : ℚ
  clickWasUseful : Bool
  judgedObjects : List String
  latestHitObjectIndex : Nat
  aliveHitCircleIds : List String
  aliveSliderIds : List String
  aliveSpinnerIds : List String
  nextCheckPointIndex : List (String × Nat)
  pressingSince : List ℚ
deriving DecidableEq

/-- `defaultReplayState()` (GameState.ts lines 246-270). -/
def defaultReplayState : GameState where
  currentTime := 0
  cursorPosition := Vec2.Zero
  hitCircleState := []
  sliderBodyState := []
  checkPointState := []
  spinnerState := []
  sliderJudgement := []
  currentCombo := 0
  maxCombo := 0
  clickWasUseful := false
  latestHitObjectIndex := 0
  aliveHitCircleIds := []
  aliveSliderIds := []
  aliveSpinnerIds := []
  judgedObjects := []
  nextCheckPointIndex := []
  pressingSince := [NOT_PRESSING, NOT_PRESSING]

/-- `cloneGameState` (GameState.ts lines 186-225): a new record is built and
every container is copied into a fresh `Map`/`Set`/array (`judgedObjects` is
spread, `pressingSince` is sliced); the only sub-object the source aliases
instead of copying is the `cursorPosition` position object
(`cursorPosition: cursorPosition`, line 214). -/
def cloneGameState (replayState : GameState) : GameState where
  hitCircleState := replayState.hitCircleState
  aliveHitCircleIds := replayState.aliveHitCircleIds
  aliveSliderIds := replayState.aliveSliderIds
  aliveSpinnerIds := replayState.aliveSpinnerIds
  checkPointState := replayState.checkPointState
  currentCombo := replayState.currentCombo
  currentTime := replayState.currentTime
  cursorPosition := replayState.cursorPosition
  latestHitObjectIndex := replayState.latestHitObjectIndex
  judgedObjects := replayState.judgedObjects
  clickWasUseful := replayState.clickWasUseful
  maxCombo := replayState.maxCombo
  nextCheckPointIndex := replayState.nextCheckPointIndex
  sliderBodyState := replayState.sliderBodyState
  sliderJudgement := replayState.sliderJudgement
  spinnerState := replayState.spinnerState
  pressingSince := replayState.pressingSince

/-- `sliderProgress` (GameState.ts line 31). -/
def sliderProgress (slider : Slider) (time : ℚ) : ℚ :=
  (time - slider.startTime) / slider.duration

/-- `actionsToBooleans` (GameState.ts lines 100-103). -/
def actionsToBooleans (osuActions : List OsuAction) : List Bool :=
  [decide (OsuAction.leftButton ∈ osuActions),
   decide (OsuAction.rightButton ∈ osuActions)]

/-- Loop body of `newPressingSince` (GameState.ts lines 105-116): position
`i` of the copy becomes `min(old, time)` when button `i` is pressed and
`NOT_PRESSING` otherwise (an index beyond the `pressed` array reads
`undefined`, which is falsy — hence `getD i false`). -/
def newPressingSinceGo (pressed : List Bool) (time : ℚ) :
    Nat → List ℚ → List ℚ
  | _, [] => []
  | i, v :: rest =>
    (if pressed.getD i false then min v time else NOT_PRESSING) ::
      newPressingSinceGo pressed time (i + 1) rest

/-- `newPressingSince` (GameState.ts lines 105-116). -/
def newPressingSince (pressingSince : List ℚ) (osuActions : List OsuAction)
    (time : ℚ) : List ℚ :=
  newPressingSinceGo (actionsToBooleans osuActions) time 0 pressingSince

/-- `determineTracking` (GameState.ts lines 61-89).  The follow-circle
distance test is kept in squared form (see the module comment); `2.4` is the
exact rational `12/5`. -/
def determineTracking (previouslyTracking : Bool) (slider : Slider)
    (cursorPosition : Position) (time : ℚ) (pressingSince : List ℚ)
    (headHitTime : Option ℚ) : Bool :=
  let keyIsBeingPressed := pressingSince.any (fun x => decide (x ≠ NOT_PRESSING))
  if ¬ keyIsBeingPressed then false
  else if time < slider.startTime ∨ slider.endTime ≤ time then false
  else
    let progress := sliderProgress slider time
    let followCircleRadius := (if previouslyTracking then (12/5 : ℚ) else 1) * slider.radius
    let distanceCursorToBall := Vec2.distSq (slider.ballPositionAt progress) cursorPosition
    if distanceCursorToBall > followCircleRadius * followCircleRadius then false
    else
      match headHitTime with
      | none => true
      | some t => pressingSince.any (fun x => decide (x ≥ t))

/-- `HitObjectVerdicts` (GameState.ts lines 272-277): the numeric index of a
verdict, used to index the hit-window table. -/
def HitObjectVerdicts : MainHitObjectVerdict → Nat
  | .GREAT => 0
  | .OK => 1
  | .MEH => 2
  | .MISS => 3

/-- The evaluator's fixed data: the beatmap, the derived hit-window table
`[great, ok, meh, miss]` (stored by the constructor, GameState.ts lines
301-308) and the note-lock policy.  These are the fields of
`NextFrameEvaluator` that never change between frames. -/
structure NextFrameEvaluatorCtx where
  beatmap : Beatmap
  hitWindows : List ℚ
  noteLockStyle : NoteLockStyle

/-- `hitWindow` (GameState.ts lines 434-436). -/
def hitWindow (ctx : NextFrameEvaluatorCtx) (verdict : MainHitObjectVerdict) : ℚ :=
  ctx.hitWindows.getD (HitObjectVerdicts verdict) 0

/-- `isWithinHitWindow` (GameState.ts lines 438-440). -/
def isWithinHitWindow (ctx : NextFrameEvaluatorCtx) (delta : ℚ)
    (judgementType : MainHitObjectVerdict) : Bool :=
  decide (|delta| ≤ hitWindow ctx judgementType)

/-- `hasFreshClickThisFrame` (GameState.ts lines 331-333). -/
def hasFreshClickThisFrame (st : GameState) : Bool :=
  decide (st.currentTime ∈ st.pressingSince)

/-- `finishHitCircle` (GameState.ts lines 395-399). -/
def finishHitCircle (id : String) (state : HitCircleState) (st : GameState) :
    GameState :=
  { st with
    hitCircleState := jsSet st.hitCircleState id state
    aliveHitCircleIds := jsSetDel st.aliveHitCircleIds id
    judgedObjects := st.judgedObjects ++ [id] }

/-- `sliderJudgementBasedOnCheckpoints` (GameState.ts lines 235-240). -/
def sliderJudgementBasedOnCheckpoints (totalCheckpoints hitCheckpoints : Nat) :
    MainHitObjectVerdict :=
  if hitCheckpoints = totalCheckpoints then .GREAT
  else if hitCheckpoints = 0 then .MISS
  else if hitCheckpoints * 2 ≥ totalCheckpoints then .OK
  else .MEH

/-- `finishSlider` (GameState.ts lines 402-432): clean up an unhit head as
MISS/SLIDER_FINISHED_FASTER at the slider's `endTime`, count the head plus
the recorded checkpoint hits, record the slider verdict, append the slider id
to `judgedObjects` and drop the slider from every live container. -/
def finishSlider (ctx : NextFrameEvaluatorCtx) (id : String) (st : GameState) :
    GameState :=
  match ctx.beatmap.getSlider id with
  | none => st
  | some slider =>
    let st1 :=
      if (jsGet st.hitCircleState slider.head.id).isSome then st
      else
        finishHitCircle slider.head.id
          ⟨slider.endTime, .MISS, some .SLIDER_FINISHED_FASTER⟩ st
    let totalCheckpoints := slider.checkPoints.length + 1
    let headHit : Nat :=
      match jsGet st1.hitCircleState slider.head.id with
      | some j => if j.type = .MISS then 0 else 1
      | none => 1
    let hitCheckpoints : Nat :=
      slider.checkPoints.foldl
        (fun acc c =>
          acc + (match jsGet st1.checkPointState c.id with
                 | some cs => if cs.hit then 1 else 0
                 | none => 0))
        headHit
    let judgement := sliderJudgementBasedOnCheckpoints totalCheckpoints hitCheckpoints
    { st1 with
      sliderJudgement := jsSet st1.sliderJudgement id judgement
      judgedObjects := st1.judgedObjects ++ [slider.id]
      aliveSliderIds := jsSetDel st1.aliveSliderIds id
      nextCheckPointIndex := jsDel st1.nextCheckPointIndex id
      sliderBodyState := jsDel st1.sliderBodyState id
      aliveHitCircleIds := jsSetDel st1.aliveHitCircleIds slider.head.id }

/-- The note-lock decision of `handleHitCircle` (GameState.ts lines 479-501):
`NONE` never locks; `STABLE` locks iff `timeSupposedToClick < hitTime`
(an undefined `timeSupposedToClick` compares as `undefined < hitTime`,
which is false in JS); `LAZER` locks iff `nextTimeSupposedToClick` is
defined and `< hitTime`. -/
def noteLockedFor (style : NoteLockStyle) (timeSupposedToClick nextTimeSupposedToClick : Option ℚ)
    (hitTime : ℚ) : Bool :=
  match style with
  | .NONE => false
  | .STABLE =>
    match timeSupposedToClick with
    | none => false
    | some t => decide (t < hitTime)
  | .LAZER =>
    match nextTimeSupposedToClick with
    | none => false
    | some t => decide (t < hitTime)

/-- `handleHitCircle` (GameState.ts lines 442-535).  The `jtypes` loop over
`[GREAT, OK, MEH]` is unrolled. -/
def handleHitCircle (ctx : NextFrameEvaluatorCtx)
    (timeSupposedToClick nextTimeSupposedToClick : Option ℚ) (id : String)
    (st : GameState) : GameState :=
  match ctx.beatmap.getHitCircle id with
  | none => st
  | some hitCircle =>
    let currentTime := st.currentTime
    let timeDelta := currentTime - hitCircle.hitTime
    let earliestDeadTime := hitCircle.hitTime + hitWindow ctx .MEH + 1
    if earliestDeadTime ≤ currentTime then
      finishHitCircle id ⟨earliestDeadTime, .MISS, some .TIME_EXPIRED⟩ st
    else if ¬ hasFreshClickThisFrame st then st
    else if st.clickWasUseful then st
    else if Vec2.distSq hitCircle.position st.cursorPosition >
        hitCircle.radius * hitCircle.radius then st
    else if noteLockedFor ctx.noteLockStyle timeSupposedToClick
        nextTimeSupposedToClick hitCircle.hitTime then st
    else if isWithinHitWindow ctx timeDelta .GREAT then
      { finishHitCircle id ⟨currentTime, .GREAT, none⟩ st with clickWasUseful := true }
    else if isWithinHitWindow ctx timeDelta .OK then
      { finishHitCircle id ⟨currentTime, .OK, none⟩ st with clickWasUseful := true }
    else if isWithinHitWindow ctx timeDelta .MEH then
      { finishHitCircle id ⟨currentTime, .MEH, none⟩ st with clickWasUseful := true }
    else if isWithinHitWindow ctx timeDelta .MISS then
      finishHitCircle id ⟨currentTime, .MISS, some .HIT_TOO_EARLY⟩ st
    else st

/-- The `hitTime` sort key used by `handleHitCircles` (unknown ids cannot
occur in reachable states; they get key `0`). -/
def hitTimeKey (ctx : NextFrameEvaluatorCtx) (id : String) : ℚ :=
  match ctx.beatmap.getHitCircle id with
  | some h => h.hitTime
  | none => 0

/-- Stable insertion into a list sorted by `key` (ties keep the existing
element first). -/
def insertByKey (key : String → ℚ) (x : String) : List String → List String
  | [] => [x]
  | y :: ys => if key x ≤ key y then x :: y :: ys else y :: insertByKey key x ys

/-- Stable sort by `key`, the result of `Array.prototype.sort` with comparator
`(i, j) => key i - key j` (sort is stable per ECMAScript 2019). -/
def sortByKey (key : String → ℚ) : List String → List String
  | [] => []
  | x :: xs => insertByKey key x (sortByKey key xs)

/-- `handleHitCircles` (GameState.ts lines 537-545): iterate a sorted copy of
the alive circle ids. -/
def handleHitCircles (ctx : NextFrameEvaluatorCtx)
    (timeSupposedToClick nextTimeSupposedToClick : Option ℚ) (st : GameState) :
    GameState :=
  (sortByKey (hitTimeKey ctx) st.aliveHitCircleIds).foldl
    (fun s id => handleHitCircle ctx timeSupposedToClick nextTimeSupposedToClick id s)
    st

/-- `earliestHitCircleStartTime` (GameState.ts lines 357-368): minimum
`hitTime` over the alive circles, optionally restricted to those with
`hitTime ≥ currentTime`; note the source folds through `earliest ?? 1e10`. -/
def earliestHitCircleStartTime (ctx : NextFrameEvaluatorCtx)
    (onlyConsiderFutureOnes : Bool) (st : GameState) : Option ℚ :=
  st.aliveHitCircleIds.foldl
    (fun earliest id =>
      match ctx.beatmap.getHitCircle id with
      | none => earliest
      | some h =>
        if onlyConsiderFutureOnes && decide (h.hitTime < st.currentTime) then earliest
        else some (min (earliest.getD 10000000000) h.hitTime))
    none

/-- Spawn loop body of `checkNewAliveHitObjects` (GameState.ts lines
373-392), running over the hit objects not yet spawned. -/
def spawnGo (st : GameState) : List HitObject → GameState
  | [] => st
  | obj :: rest =>
    if obj.spawnTime > st.currentTime then st
    else
      let st1 :=
        match obj with
        | .spinner sp => { st with aliveSpinnerIds := jsAdd st.aliveSpinnerIds sp.id }
        | .circle c => { st with aliveHitCircleIds := jsAdd st.aliveHitCircleIds c.id }
        | .slider s =>
          { st with
            aliveHitCircleIds := jsAdd st.aliveHitCircleIds s.head.id
            aliveSliderIds := jsAdd st.aliveSliderIds s.id
            nextCheckPointIndex := jsSet st.nextCheckPointIndex s.id 0 }
      spawnGo { st1 with latestHitObjectIndex := st1.latestHitObjectIndex + 1 } rest

/-- `checkNewAliveHitObjects` (GameState.ts lines 373-392). -/
def checkNewAliveHitObjects (ctx : NextFrameEvaluatorCtx) (st : GameState) :
    GameState :=
  spawnGo st (ctx.beatmap.hitObjects.drop st.latestHitObjectIndex)

/-- `headHitTime` (GameState.ts lines 547-551). -/
def headHitTime (st : GameState) (headId : String) : Option ℚ :=
  match jsGet st.hitCircleState headId with
  | none => none
  | some j => if j.type = .MISS then none else some j.judgementTime

/-- `updateSliderBodyTracking` (GameState.ts lines 553-573). -/
def updateSliderBodyTracking (ctx : NextFrameEvaluatorCtx) (st : GameState) :
    GameState :=
  st.aliveSliderIds.foldl
    (fun s id =>
      match ctx.beatmap.getSlider id with
      | none => s
      | some slider =>
        let hht := headHitTime s slider.head.id
        let wasTracking :=
          match jsGet s.sliderBodyState id with
          | some b => b.isTracking
          | none => false
        let isTracking := determineTracking wasTracking slider s.cursorPosition
          s.currentTime s.pressingSince hht
        { s with sliderBodyState := jsSet s.sliderBodyState id ⟨isTracking⟩ })
    st

/-- `handleSliderJudgment` (GameState.ts lines 575-585): iterate a copy of
the alive slider ids and finish every slider with `endTime ≤ currentTime`. -/
def handleSliderJudgment (ctx : NextFrameEvaluatorCtx) (st : GameState) :
    GameState :=
  st.aliveSliderIds.foldl
    (fun s id =>
      match ctx.beatmap.getSlider id with
      | none => s
      | some slider =>
        if slider.endTime ≤ s.currentTime then finishSlider ctx id s else s)
    st

/-- `predictedPositionAt` (GameState.ts lines 643-647). -/
def predictedPositionAt (previousTime : ℚ) (previousPosition : Position)
    (currentTime : ℚ) (cursorPosition : Position) (time : ℚ) : Position :=
  if currentTime = previousTime then cursorPosition
  else
    Vec2.interpolate previousPosition cursorPosition
      ((time - previousTime) / (currentTime - previousTime))

/-- The scan of `handleSliderCheckPoints` (GameState.ts lines 595-605): walk
the `nextCheckPointIndex` entries in map (insertion) order, keeping the entry
whose pending checkpoint has `hitTime < currentTime` and is strictly earlier
than the best so far (`earliestTime` starts at `1e18`); ties therefore keep
the earlier map entry. -/
def scanStep (ctx : NextFrameEvaluatorCtx) (now : ℚ) (acc : Option String × ℚ)
    (e : String × Nat) : Option String × ℚ :=
  match ctx.beatmap.getSlider e.1 with
  | none => acc
  | some slider =>
    match slider.checkPoints[e.2]? with
    | none => acc
    | some checkPoint =>
      if decide (checkPoint.hitTime < now) && decide (checkPoint.hitTime < acc.2)
      then (some e.1, checkPoint.hitTime)
      else acc

def scanEarliestCheckPoint (ctx : NextFrameEvaluatorCtx) (now : ℚ)
    (entries : List (String × Nat)) : Option String :=
  (entries.foldl (scanStep ctx now) (none, (1000000000000000000 : ℚ))).1

/-- One iteration of the `handleSliderCheckPoints` loop (GameState.ts lines
606-640): judge the selected checkpoint with the interpolated cursor position
at `ceil(hitTime − 1e-10)` and the frame's OLD `pressingSince`, append its id
to `judgedObjects`, and advance or clear the slider's checkpoint index. -/
def checkPointLoopStep (ctx : NextFrameEvaluatorCtx) (previousTime : ℚ)
    (previousPosition : Position) (oldPressingSince : List ℚ) (sid : String)
    (st : GameState) : GameState :=
  match ctx.beatmap.getSlider sid with
  | none => st
  | some slider =>
    match jsGet st.nextCheckPointIndex sid with
    | none => st
    | some index =>
      match slider.checkPoints[index]? with
      | none => st
      | some checkPoint =>
        let hht := headHitTime st slider.head.id
        let wasTracking :=
          match jsGet st.sliderBodyState slider.id with
          | some b => b.isTracking
          | none => false
        let timeToCheck : ℚ := ((⌈checkPoint.hitTime - 1 / 10000000000⌉ : ℤ) : ℚ)
        let predictedPosition := predictedPositionAt previousTime previousPosition
          st.currentTime st.cursorPosition timeToCheck
        let isTracking := determineTracking wasTracking slider predictedPosition
          timeToCheck oldPressingSince hht
        let st1 :=
          { st with
            checkPointState := jsSet st.checkPointState checkPoint.id ⟨isTracking⟩
            judgedObjects := st.judgedObjects ++ [checkPoint.id] }
        if index + 1 < slider.checkPoints.length then
          { st1 with nextCheckPointIndex := jsSet st1.nextCheckPointIndex slider.id (index + 1) }
        else
          { st1 with nextCheckPointIndex := jsDel st1.nextCheckPointIndex slider.id }

/-- The `while (true)` loop of `handleSliderCheckPoints`, with explicit fuel.
Each source iteration consumes one pending checkpoint, so the loop runs at
most `cpMeasure` iterations (the total number of pending checkpoints when it
starts); `handleSliderCheckPoints` passes exactly that much fuel, which
reproduces the source loop on every state whose `nextCheckPointIndex` has
no duplicate keys (JS Maps never do). -/
def checkPointLoop (ctx : NextFrameEvaluatorCtx) (previousTime : ℚ)
    (previousPosition : Position) (oldPressingSince : List ℚ) :
    Nat → GameState → GameState
  | 0, st => st
  | fuel + 1, st =>
    match scanEarliestCheckPoint ctx st.currentTime st.nextCheckPointIndex with
    | none => st
    | some sid =>
      checkPointLoop ctx previousTime previousPosition oldPressingSince fuel
        (checkPointLoopStep ctx previousTime previousPosition oldPressingSince sid st)

/-- Total number of pending checkpoints recorded in `nextCheckPointIndex`. -/
def cpMeasure (ctx : NextFrameEvaluatorCtx) (entries : List (String × Nat)) : Nat :=
  entries.foldl
    (fun acc e =>
      acc + (match ctx.beatmap.getSlider e.1 with
             | none => 0
             | some s => s.checkPoints.length - e.2))
    0

/-- `handleSliderCheckPoints` (GameState.ts lines 588-641). -/
def handleSliderCheckPoints (ctx : NextFrameEvaluatorCtx) (previousTime : ℚ)
    (previousPosition : Position) (oldPressingSince : List ℚ) (st : GameState) :
    GameState :=
  checkPointLoop ctx previousTime previousPosition oldPressingSince
    (cpMeasure ctx st.nextCheckPointIndex) st

/-- `handleSpinners` (GameState.ts lines 650-660). -/
def handleSpinners (ctx : NextFrameEvaluatorCtx) (st : GameState) : GameState :=
  st.aliveSpinnerIds.foldl
    (fun s id =>
      match ctx.beatmap.getSpinner id with
      | none => s
      | some spinner =>
        if spinner.endTime < s.currentTime then
          { s with
            aliveSpinnerIds := jsSetDel s.aliveSpinnerIds spinner.id
            judgedObjects := s.judgedObjects ++ [id] }
        else s)
    st

/-- `evaluateNextFrameMutated` (GameState.ts lines 662-684): bind the frame,
update the button timings, spawn, compute the supposed-click times, then run
the circle / slider / checkpoint / tracking / spinner phases in order.
The source performs no check that `frame.time ≥ state.currentTime`. -/
def evaluateNextFrameMutated (ctx : NextFrameEvaluatorCtx)
    (previousGameState : GameState) (frame : ReplayFrame) : GameState :=
  let previousPosition := previousGameState.cursorPosition
  let previousTime := previousGameState.currentTime
  let st0 :=
    { previousGameState with
      currentTime := frame.time
      cursorPosition := frame.position
      clickWasUseful := false }
  let oldPressingSince := st0.pressingSince
  let st1 := { st0 with pressingSince := newPressingSince st0.pressingSince frame.actions frame.time }
  let st2 := checkNewAliveHitObjects ctx st1
  let timeSupposedToClick := earliestHitCircleStartTime ctx false st2
  let nextTimeSupposedToClick := earliestHitCircleStartTime ctx true st2
  let st3 := handleHitCircles ctx timeSupposedToClick nextTimeSupposedToClick st2
  let st4 := handleSliderJudgment ctx st3
  let st5 := handleSliderCheckPoints ctx previousTime previousPosition oldPressingSince st4
  let st6 := updateSliderBodyTracking ctx st5
  handleSpinners ctx st6

/-! ## Heap containers of a GameState (for the cloning contract) -/

/-- The mutable heap objects reachable from a `GameState` in the source: the
`cursorPosition` position object, the five per-object state `Map`s, the three
alive-id `Set`s, the `judgedObjects` array, the `nextCheckPointIndex` `Map`
and the `pressingSince` array. -/
inductive GameStateContainer where
  | cursorPositionObj
  | hitCircleStateMap
  | sliderBodyStateMap
  | checkPointStateMap
  | sliderJudgementMap
  | spinnerStateMap
  | judgedObjectsArr
  | aliveHitCircleIdsSet
  | aliveSliderIdsSet
  | aliveSpinnerIdsSet
  | nextCheckPointIndexMap
  | pressingSinceArr
deriving DecidableEq

/-- Which containers `cloneGameState` copies into a fresh heap object
(GameState.ts lines 206-224): every `Map` goes through `new Map(...)`, every
`Set` through `new Set(...)`, `judgedObjects` is spread into a new array and
`pressingSince` is `.slice()`d; the only aliased sub-object is the
`cursorPosition` position (`cursorPosition: cursorPosition`, line 214). -/
def cloneAllocatesFresh : GameStateContainer → Bool
  | .cursorPositionObj => false
  | _ => true

/-- Which containers `evaluateNextFrameMutated` (through the phases it calls)
ever mutates in place, read off the `.set` / `.delete` / `.add` / `.push`
calls in GameState.ts: `hitCircleState` (line 396), `aliveHitCircleIds`
(381-386, 397, 431), `aliveSliderIds` (387, 428), `aliveSpinnerIds` (381,
656), `nextCheckPointIndex` (388, 429, 635, 638), `sliderBodyState` (430,
571), `sliderJudgement` (424), `checkPointState` (630), `judgedObjects`
(398, 426, 632, 657).  The `cursorPosition` object and the `pressingSince`
array are only ever replaced wholesale by field assignment (lines 667 and
673 — `newPressingSince` builds a fresh array), and `spinnerState` is never
written by the evaluator. -/
def advanceMutatesInPlace : GameStateContainer → Bool
  | .cursorPositionObj => false
  | .pressingSinceArr => false
  | .spinnerStateMap => false
  | _ => true

/-! ## Spec-side definitions (used only in claim statements) -/

/-- A slider checkpoint is recorded as hit in a state's `checkPointState`. -/
def recordedHitIn (st : GameState) (c : SliderCheckPoint) : Bool :=
  match jsGet st.checkPointState c.id with
  | some cs => cs.hit
  | none => false

/-- The slider's head has a recorded verdict other than MISS in a state. -/
def headRecordedNonMiss (st : GameState) (slider : Slider) : Bool :=
  match jsGet st.hitCircleState slider.head.id with
  | some j => decide (j.type ≠ .MISS)
  | none => false

/-- The slider verdict the spec prescribes from the checkpoint ratio:
all hit → GREAT, none hit → MISS, at least half → OK, otherwise MEH. -/
def sliderVerdictSpec (total hitc : Nat) : MainHitObjectVerdict :=
  if hitc = total then .GREAT
  else if hitc = 0 then .MISS
  else if 2 * hitc ≥ total then .OK
  else .MEH

/-- All ids carried by one hit object: the object's own id, plus (for a
slider) its head id and its checkpoint ids. -/
def objIds : HitObject → List String
  | .circle c => [c.id]
  | .slider s => s.id :: s.head.id :: s.checkPoints.map (fun cp => cp.id)
  | .spinner sp => [sp.id]

/-- All ids of a hit-object list, in order. -/
def listIds : List HitObject → List String
  | [] => []
  | o :: rest => objIds o ++ listIds rest

/-- All ids of a beatmap.  The spec requires ids to be stable and unique
("addressed by stable string ids", §3); `(beatmapIds b).Nodup` is that
hygiene condition. -/
def beatmapIds (b : Beatmap) : List String := listIds b.hitObjects

/-- The `hitTime` of the pending checkpoint recorded by a
`nextCheckPointIndex` entry, when it exists and lies before `now` (the
source's per-entry selection condition `checkPoint.hitTime < currentTime`). -/
def pendingCheckPointTime (ctx : NextFrameEvaluatorCtx) (now : ℚ)
    (e : String × Nat) : Option ℚ :=
  match ctx.beatmap.getSlider e.1 with
  | none => none
  | some slider =>
    match slider.checkPoints[e.2]? with
    | none => none
    | some cp => if cp.hitTime < now then some cp.hitTime else none

/-- A pending checkpoint the scan can actually select: its `hitTime` must
also lie below the scan's `1e18` initial sentinel. -/
def selectableCheckPointTime (ctx : NextFrameEvaluatorCtx) (now : ℚ)
    (e : String × Nat) : Option ℚ :=
  match pendingCheckPointTime ctx now e with
  | none => none
  | some t => if t < 1000000000000000000 then some t else none

/-- Button `i` (0 = left, 1 = right) is held in an action list. -/
def heldAt (i : Nat) (acts : List OsuAction) : Bool :=
  (actionsToBooleans acts).getD i false

/-- Spec-side press tracker: the start time of the current uninterrupted
press of button `i` after consuming a frame list (`none` when the button is
not held in the latest frame); a press that persists keeps its original
start time, a fresh press starts at the frame's time. -/
def pressStartGo (i : Nat) (cur : Option ℚ) : List ReplayFrame → Option ℚ
  | [] => cur
  | f :: rest =>
    pressStartGo i (if heldAt i f.actions then some (cur.getD f.time) else none) rest

/-- The start time of the current press of button `i` after a frame list,
starting from the all-released initial state. -/
def pressStart (i : Nat) (frames : List ReplayFrame) : Option ℚ :=
  pressStartGo i none frames

/-- Feed a frame list through the evaluator in order. -/
def runFrames (ctx : NextFrameEvaluatorCtx) (st : GameState)
    (frames : List ReplayFrame) : GameState :=
  frames.foldl (evaluateNextFrameMutated ctx) st

/-! ## Concrete fixtures used by witnesses and counterexamples -/

/-- A context with an empty beatmap and the reference window table
`[20, 60, 100, 200]` (spec §8, scenario 2). -/
def ctxEmpty : NextFrameEvaluatorCtx where
  beatmap := ⟨[]⟩
  hitWindows := [20, 60, 100, 200]
  noteLockStyle := .STABLE

/-- A state whose clock already advanced to time 100. -/
def stateC1 : GameState := { defaultReplayState with currentTime := 100 }

/-- A frame that arrives out of order (time 50 < 100). -/
def frameC1 : ReplayFrame where
  time := 50
  position := ⟨0, 0⟩
  actions := []

/-- A slider fixture: head at time 1000, one checkpoint at 1500, ends at
2000. -/
def sliderW : Slider where
  id := "s1"
  head := { id := "s1head", position := ⟨0, 0⟩, radius := 30, hitTime := 1000, spawnTime := 0 }
  checkPoints := [⟨"s1cp0", 1500⟩]
  startTime := 1000
  endTime := 2000
  duration := 1000
  radius := 30
  ballPositionAt := fun _ => ⟨0, 0⟩
  spawnTime := 0

/-- A context holding only `sliderW`. -/
def ctxW : NextFrameEvaluatorCtx where
  beatmap := ⟨[.slider sliderW]⟩
  hitWindows := [20, 60, 100, 200]
  noteLockStyle := .STABLE

/-- A state in which `sliderW` is alive, its head is unjudged, and its
checkpoint was recorded as hit. -/
def stW : GameState :=
  { defaultReplayState with
    currentTime := 2000
    aliveSliderIds := ["s1"]
    aliveHitCircleIds := ["s1head"]
    checkPointState := [("s1cp0", ⟨true⟩)] }

/-- A frame whose time exceeds the `NOT_PRESSING` sentinel, with the left
button freshly pressed. -/
def frameC7 : ReplayFrame where
  time := 727727728
  position := ⟨0, 0⟩
  actions := [.leftButton]

/-- A two-frame hold of the left button (pressed at 10, still held at 20). -/
def framesC7w : List ReplayFrame :=
  [⟨10, ⟨0, 0⟩, [.leftButton]⟩, ⟨20, ⟨0, 0⟩, [.leftButton]⟩]

/-- An entry of a hit-circle state map that is absent from the reference map
`sm` and carries a non-MISS verdict: a hit recorded since `sm`. -/
def hitEntryFresh (sm : List (String × HitCircleState))
    (e : String × HitCircleState) : Bool :=
  decide (jsGet sm e.1 = none) && decide (e.2.type ≠ .MISS)

/-- The number of non-MISS hit-circle verdicts recorded in `m` that are
absent from the reference map `sm`. -/
def freshHits (sm m : List (String × HitCircleState)) : Nat :=
  (m.filter (hitEntryFresh sm)).length

/-- Two stacked circles "A" (hit time 1000) and "B" (hit time 1010) at
different positions, under the lazer note-lock policy. -/
def ctxC3 : NextFrameEvaluatorCtx where
  beatmap := ⟨[
    .circle { id := "A", position := ⟨1000, 0⟩, radius := 30, hitTime := 1000, spawnTime := 0 },
    .circle { id := "B", position := ⟨0, 0⟩, radius := 30, hitTime := 1010, spawnTime := 0 }]⟩
  hitWindows := [20, 60, 100, 200]
  noteLockStyle := .LAZER

/-- A fresh left click at t = 995 directly on circle "B" (cursor at the
origin, far from "A"). -/
def frameC3 : ReplayFrame where
  time := 995
  position := ⟨0, 0⟩
  actions := [.leftButton]

/-- Two simultaneously clickable circles: "A" and "B" share `hitTime = 1000`
and the position (0, 0), with note-lock style `none`. -/
def ctxC6 : NextFrameEvaluatorCtx where
  beatmap := ⟨[
    .circle { id := "A", position := ⟨0, 0⟩, radius := 30, hitTime := 1000, spawnTime := 0 },
    .circle { id := "B", position := ⟨0, 0⟩, radius := 30, hitTime := 1000, spawnTime := 0 }]⟩
  hitWindows := [20, 60, 100, 200]
  noteLockStyle := .NONE

/-- A fresh left click at t = 1000 on both stacked circles. -/
def frameC6 : ReplayFrame where
  time := 1000
  position := ⟨0, 0⟩
  actions := [.leftButton]

/-- A lone hit circle at (100, 100), radius 30, hit time 1000 (spec §8,
scenario 2). -/
def circA : HitCircle where
  id := "A"
  position := ⟨100, 100⟩
  radius := 30
  hitTime := 1000
  spawnTime := 0

/-- A context holding only `circA`, with windows [20, 60, 100, 200]. -/
def ctxA : NextFrameEvaluatorCtx where
  beatmap := ⟨[.circle circA]⟩
  hitWindows := [20, 60, 100, 200]
  noteLockStyle := .STABLE

/-- A state in which `circA` is alive and already spawned. -/
def stC2a : GameState :=
  { defaultReplayState with aliveHitCircleIds := ["A"], latestHitObjectIndex := 1 }

/-- A frame at t = 1101 = 1000 + meh(100) + 1, past `circA`'s deadline. -/
def frameC2a : ReplayFrame where
  time := 1101
  position := ⟨500, 500⟩
  actions := []

/-- A state at exactly t = 1100 = 1000 + meh(100) with a fresh click on
`circA`'s position. -/
def stC2b : GameState :=
  { defaultReplayState with
    currentTime := 1100
    cursorPosition := ⟨100, 100⟩
    pressingSince := [1100, NOT_PRESSING] }

/-- A one-checkpoint slider (checkpoint at time 100, slider over [0, 200]),
with configurable ids. -/
def sliderC8 (sid hid cid : String) : Slider where
  id := sid
  head := { id := hid, position := ⟨0, 0⟩, radius := 30, hitTime := 0, spawnTime := 0 }
  checkPoints := [⟨cid, 100⟩]
  startTime := 0
  endTime := 200
  duration := 200
  radius := 30
  ballPositionAt := fun _ => ⟨0, 0⟩
  spawnTime := 0

/-- Sliders "b" then "a" in spawn order; both have a checkpoint at time 100.
The wide windows keep the heads from timing out at t = 150. -/
def ctxC8ba : NextFrameEvaluatorCtx where
  beatmap := ⟨[.slider (sliderC8 "b" "bh" "bc"), .slider (sliderC8 "a" "ah" "ac")]⟩
  hitWindows := [20, 60, 1000, 2000]
  noteLockStyle := .STABLE

/-- The same two sliders with the spawn order reversed: "a" then "b". -/
def ctxC8ab : NextFrameEvaluatorCtx where
  beatmap := ⟨[.slider (sliderC8 "a" "ah" "ac"), .slider (sliderC8 "b" "bh" "bc")]⟩
  hitWindows := [20, 60, 1000, 2000]
  noteLockStyle := .STABLE

/-- A buttonless frame at t = 150, after both checkpoints' times. -/
def frameC8 : ReplayFrame where
  time := 150
  position := ⟨500, 500⟩
  actions := []

/-- The single (tail) checkpoint of the C10 fixture slider, at the slider's
end time. -/
def cpC10 : SliderCheckPoint where
  id := "sc"
  hitTime := 200

/-- A one-checkpoint slider over [0, 200] used by the C10 witness. -/
def sliderC10 : Slider where
  id := "s"
  head := { id := "sh", position := ⟨0, 0⟩, radius := 30, hitTime := 0, spawnTime := 0 }
  checkPoints := [cpC10]
  startTime := 0
  endTime := 200
  duration := 200
  radius := 30
  ballPositionAt := fun _ => ⟨0, 0⟩
  spawnTime := 0

/-- A context holding only `sliderC10`, with windows [20, 60, 100, 200]. -/
def ctxC10 : NextFrameEvaluatorCtx where
  beatmap := ⟨[.slider sliderC10]⟩
  hitWindows := [20, 60, 100, 200]
  noteLockStyle := .STABLE

/-- A state in which `sliderC10` is alive and spawned, with its checkpoint
still pending and unrecorded. -/
def stC10 : GameState :=
  { defaultReplayState with
    aliveSliderIds := ["s"]
    aliveHitCircleIds := ["sh"]
    nextCheckPointIndex := [("s", 0)]
    latestHitObjectIndex := 1 }

/-- A buttonless frame at t = 500, past the slider's end time 200. -/
def frameC10 : ReplayFrame where
  time := 500
  position := ⟨400, 400⟩
  actions := []

/-! ## Generic helpers -/

/-- A projection preserved by every fold step is preserved by the fold. -/
theorem foldlPres {α β γ : Type _} (proj : β → γ) (g : β → α → β)
    (h : ∀ s a, proj (g s a) = proj s) :
    ∀ (l : List α) (s : β), proj (l.foldl g s) = proj s := by
  intro l
  induction l with
  | nil => intro s; rfl
  | cons a l ih => intro s; simp only [List.foldl_cons]; rw [ih, h]

/-! ## Field-preservation lemmas for the evaluator phases -/

theorem finishHitCircle_currentTime (id : String) (v : HitCircleState) (st : GameState) :
    (finishHitCircle id v st).currentTime = st.currentTime := rfl

theorem handleHitCircle_currentTime (ctx : NextFrameEvaluatorCtx)
    (tstc ntstc : Option ℚ) (id : String) (st : GameState) :
    (handleHitCircle ctx tstc ntstc id st).currentTime = st.currentTime := by
  unfold handleHitCircle
  cases ctx.beatmap.getHitCircle id <;> simp only [] <;> try rfl
  split_ifs <;> rfl

theorem handleHitCircles_currentTime (ctx : NextFrameEvaluatorCtx)
    (tstc ntstc : Option ℚ) (st : GameState) :
    (handleHitCircles ctx tstc ntstc st).currentTime = st.currentTime := by
  unfold handleHitCircles
  exact foldlPres _ _ (fun s a => handleHitCircle_currentTime ctx tstc ntstc a s) _ st

theorem finishSlider_currentTime (ctx : NextFrameEvaluatorCtx) (id : String) (st : GameState) :
    (finishSlider ctx id st).currentTime = st.currentTime := by
  unfold finishSlider
  cases ctx.beatmap.getSlider id <;> simp only [] <;> try rfl
  split_ifs <;> rfl

theorem handleSliderJudgment_currentTime (ctx : NextFrameEvaluatorCtx) (st : GameState) :
    (handleSliderJudgment ctx st).currentTime = st.currentTime := by
  unfold handleSliderJudgment
  refine foldlPres _ _ (fun s a => ?_) _ st
  cases ctx.beatmap.getSlider a <;> simp only [] <;> try rfl
  split_ifs <;> simp [finishSlider_currentTime]

theorem checkPointLoopStep_currentTime (ctx : NextFrameEvaluatorCtx) (pt : ℚ)
    (pp : Position) (ops : List ℚ) (sid : String) (st : GameState) :
    (checkPointLoopStep ctx pt pp ops sid st).currentTime = st.currentTime := by
  unfold checkPointLoopStep
  cases ctx.beatmap.getSlider sid <;> simp only [] <;> try rfl
  cases jsGet st.nextCheckPointIndex sid <;> simp only [] <;> try rfl
  split <;> try rfl
  split_ifs <;> rfl

theorem checkPointLoop_currentTime (ctx : NextFrameEvaluatorCtx) (pt : ℚ)
    (pp : Position) (ops : List ℚ) :
    ∀ (fuel : Nat) (st : GameState),
      (checkPointLoop ctx pt pp ops fuel st).currentTime = st.currentTime := by
  intro fuel
  induction fuel with
  | zero => intro st; rfl
  | succ n ih =>
    intro st
    unfold checkPointLoop
    cases scanEarliestCheckPoint ctx st.currentTime st.nextCheckPointIndex <;>
      simp only [] <;> try rfl
    rw [ih, checkPointLoopStep_currentTime]

theorem handleSliderCheckPoints_currentTime (ctx : NextFrameEvaluatorCtx) (pt : ℚ)
    (pp : Position) (ops : List ℚ) (st : GameState) :
    (handleSliderCheckPoints ctx pt pp ops st).currentTime = st.currentTime :=
  checkPointLoop_currentTime ctx pt pp ops _ st

theorem updateSliderBodyTracking_currentTime (ctx : NextFrameEvaluatorCtx) (st : GameState) :
    (updateSliderBodyTracking ctx st).currentTime = st.currentTime := by
  unfold updateSliderBodyTracking
  refine foldlPres _ _ (fun s a => ?_) _ st
  cases ctx.beatmap.getSlider a <;> rfl

theorem handleSpinners_currentTime (ctx : NextFrameEvaluatorCtx) (st : GameState) :
    (handleSpinners ctx st).currentTime = st.currentTime := by
  unfold handleSpinners
  refine foldlPres _ _ (fun s a => ?_) _ st
  cases ctx.beatmap.getSpinner a <;> simp only [] <;> try rfl
  split_ifs <;> rfl

theorem spawnGo_currentTime (st : GameState) (objs : List HitObject) :
    (spawnGo st objs).currentTime = st.currentTime := by
  induction objs generalizing st with
  | nil => rfl
  | cons obj rest ih =>
    unfold spawnGo
    split_ifs
    · rfl
    · cases obj <;> simp only [] <;> rw [ih]

theorem checkNewAliveHitObjects_currentTime (ctx : NextFrameEvaluatorCtx) (st : GameState) :
    (checkNewAliveHitObjects ctx st).currentTime = st.currentTime :=
  spawnGo_currentTime st _

theorem evaluateNextFrameMutated_currentTime (ctx : NextFrameEvaluatorCtx)
    (s : GameState) (f : ReplayFrame) :
    (evaluateNextFrameMutated ctx s f).currentTime = f.time := by
  unfold evaluateNextFrameMutated
  rw [handleSpinners_currentTime, updateSliderBodyTracking_currentTime,
    handleSliderCheckPoints_currentTime, handleSliderJudgment_currentTime,
    handleHitCircles_currentTime, checkNewAliveHitObjects_currentTime]

/-! ## Claim C1 -/

/-- C1 counterexample: with `frame.time = 50 < 100 = state.currentTime`, the
evaluator does not reject the call and does not leave the state unchanged —
the resulting state differs from the input state (its `currentTime` is 50). -/
theorem C1_counterexample :
    frameC1.time < stateC1.currentTime ∧
      evaluateNextFrameMutated ctxEmpty stateC1 frameC1 ≠ stateC1 := by
  constructor
  · decide
  · decide

/-- C1 (amended): `evaluateNextFrameMutated` performs no frame-order check.
Even when `frame.time < state.currentTime`, the call is processed like any
other frame: the state is mutated, with `currentTime` bound to `frame.time`
(so the state is not left unchanged). -/
theorem C1_no_out_of_order_rejection (ctx : NextFrameEvaluatorCtx)
    (s : GameState) (f : ReplayFrame) (h : f.time < s.currentTime) :
    (evaluateNextFrameMutated ctx s f).currentTime = f.time ∧
      evaluateNextFrameMutated ctx s f ≠ s := by
  refine ⟨evaluateNextFrameMutated_currentTime ctx s f, fun hEq => ?_⟩
  have hc : (evaluateNextFrameMutated ctx s f).currentTime = s.currentTime := by rw [hEq]
  rw [evaluateNextFrameMutated_currentTime ctx s f] at hc
  exact absurd hc (ne_of_lt h)

/-- C1 witness: the amended claim applied to the concrete out-of-order call. -/
theorem C1_witness :
    (evaluateNextFrameMutated ctxEmpty stateC1 frameC1).currentTime = frameC1.time ∧
      evaluateNextFrameMutated ctxEmpty stateC1 frameC1 ≠ stateC1 :=
  C1_no_out_of_order_rejection ctxEmpty stateC1 frameC1 (by decide)

/-! ## Claim C4 -/

/-- C4: the tracking predicate `determineTracking` returns `true` iff the
four conditions of the spec hold: (1) some `pressing_since` entry differs
from `NOT_PRESSING`; (2) `slider.startTime ≤ t < slider.endTime`; (3) the
ball-to-cursor distance is within `(2.4 if was_tracking else 1.0) ×
slider.radius` (stated in squared form, see the module comment); (4)
`head_hit_time` is undefined or some `pressing_since` entry is `≥` it. -/
theorem C4_determineTracking_iff (previouslyTracking : Bool) (slider : Slider)
    (cursorPosition : Position) (time : ℚ) (pressingSince : List ℚ)
    (headHitTime : Option ℚ) :
    determineTracking previouslyTracking slider cursorPosition time pressingSince
        headHitTime = true ↔
      ((∃ x ∈ pressingSince, x ≠ NOT_PRESSING) ∧
       (slider.startTime ≤ time ∧ time < slider.endTime) ∧
       Vec2.distSq (slider.ballPositionAt (sliderProgress slider time)) cursorPosition ≤
         ((if previouslyTracking then (12/5 : ℚ) else 1) * slider.radius) *
           ((if previouslyTracking then (12/5 : ℚ) else 1) * slider.radius) ∧
       (headHitTime = none ∨
         ∃ t x, headHitTime = some t ∧ x ∈ pressingSince ∧ t ≤ x)) := by
  unfold determineTracking
  generalize (if previouslyTracking = true then (12/5 : ℚ) else 1) * slider.radius = fr
  have hany : (pressingSince.any fun x => decide (x ≠ NOT_PRESSING)) = true ↔
      ∃ x ∈ pressingSince, x ≠ NOT_PRESSING := by
    simp [List.any_eq_true]
  by_cases hk : (pressingSince.any fun x => decide (x ≠ NOT_PRESSING)) = true
  · rw [if_neg (fun hcon => hcon hk)]
    by_cases ht : time < slider.startTime ∨ slider.endTime ≤ time
    · rw [if_pos ht]
      simp only [Bool.false_eq_true, false_iff]
      intro hc
      rcases ht with ht | ht
      · exact absurd hc.2.1.1 (not_le.mpr ht)
      · exact absurd hc.2.1.2 (not_lt.mpr ht)
    · rw [if_neg ht]
      push_neg at ht
      by_cases hd : Vec2.distSq (slider.ballPositionAt (sliderProgress slider time))
          cursorPosition > fr * fr
      · rw [if_pos hd]
        simp only [Bool.false_eq_true, false_iff]
        intro hc
        exact absurd hc.2.2.1 (not_le.mpr hd)
      · rw [if_neg hd]
        push_neg at hd
        cases headHitTime with
        | none =>
          simp only [true_iff]
          exact ⟨hany.mp hk, ⟨ht.1, ht.2⟩, hd, Or.inl trivial⟩
        | some t =>
          simp only [List.any_eq_true, decide_eq_true_eq, ge_iff_le]
          constructor
          · rintro ⟨x, hx, hxt⟩
            exact ⟨hany.mp hk, ⟨ht.1, ht.2⟩, hd, Or.inr ⟨t, x, rfl, hx, hxt⟩⟩
          · rintro ⟨-, -, -, hlast⟩
            rcases hlast with h | ⟨t', x, ht', hx, hxt⟩
            · exact absurd h (Option.some_ne_none t)
            · exact ⟨x, hx, (Option.some_inj.mp ht') ▸ hxt⟩
  · rw [if_pos hk]
    simp only [Bool.false_eq_true, false_iff]
    intro hc
    exact hk (hany.mpr hc.1)

/-! ## Claim C9 -/

/-- C9: `cloneGameState` yields a state equal to its input field for field,
and the clone is isolated from `advance`: every container the evaluator ever
mutates in place is one the clone allocates fresh.  The single aliased
sub-object (the `cursorPosition` position) is never mutated in place — the
evaluator only reassigns the `cursorPosition` field — and map/array values
are never mutated after insertion (the source always `.set`s a fresh object
literal), so no sequence of `advance` calls on one copy can change any field
of the other. -/
theorem C9_clone_exact_and_isolated :
    (∀ s : GameState, cloneGameState s = s) ∧
      (∀ f : GameStateContainer,
        advanceMutatesInPlace f = true → cloneAllocatesFresh f = true) := by
  constructor
  · intro s
    rfl
  · intro f h
    cases f <;> first | rfl | exact h

/-- C9 witness: the cloning contract applied to a concrete state and the
concrete container the evaluator mutates most (the hit-circle state map). -/
theorem C9_witness :
    cloneGameState stateC1 = stateC1 ∧
      cloneAllocatesFresh .hitCircleStateMap = true :=
  ⟨C9_clone_exact_and_isolated.1 stateC1,
   C9_clone_exact_and_isolated.2 .hitCircleStateMap (by decide)⟩

/-! ## Association-list (JS Map / Set) lemmas -/

theorem jsGet_set_self {V : Type} (m : List (String × V)) (k : String) (v : V) :
    jsGet (jsSet m k v) k = some v := by
  induction m with
  | nil => simp [jsGet, jsSet]
  | cons e rest ih =>
    by_cases h : e.1 = k
    · simp [jsSet, h, jsGet]
    · simp [jsSet, h, jsGet, ih]

theorem jsGet_set_ne {V : Type} (m : List (String × V)) (k k' : String) (v : V)
    (h : k' ≠ k) : jsGet (jsSet m k v) k' = jsGet m k' := by
  induction m with
  | nil => simp [jsGet, jsSet, Ne.symm h]
  | cons e rest ih =>
    by_cases he : e.1 = k
    · simp [jsSet, he, jsGet, Ne.symm h]
    · simp [jsSet, he, jsGet, ih]

theorem jsGet_del_self {V : Type} (m : List (String × V)) (k : String) :
    jsGet (jsDel m k) k = none := by
  induction m with
  | nil => rfl
  | cons e rest ih =>
    by_cases h : e.1 = k
    · simpa [jsDel, h] using ih
    · simpa [jsDel, h, jsGet] using ih

theorem jsGet_del_ne {V : Type} (m : List (String × V)) (k k' : String)
    (h : k' ≠ k) : jsGet (jsDel m k) k' = jsGet m k' := by
  induction m with
  | nil => rfl
  | cons e rest ih =>
    by_cases he : e.1 = k
    · have he' : ¬ e.1 = k' := by rw [he]; exact Ne.symm h
      simp [jsDel, he, jsGet, he', ih, Ne.symm h]
    · by_cases he' : e.1 = k'
      · simp [jsDel, he, jsGet, he', h]
      · simp [jsDel, he, jsGet, he', ih]

theorem mem_jsSetDel_iff (s : List String) (k x : String) :
    x ∈ jsSetDel s k ↔ x ∈ s ∧ x ≠ k := by
  induction s with
  | nil => simp [jsSetDel]
  | cons e rest ih =>
    by_cases h : e = k
    · subst h
      simp only [jsSetDel, if_pos rfl, ih, List.mem_cons]
      tauto
    · simp only [jsSetDel, if_neg h, List.mem_cons, ih]
      constructor
      · rintro (rfl | ⟨hx, hne⟩)
        · exact ⟨Or.inl rfl, h⟩
        · exact ⟨Or.inr hx, hne⟩
      · rintro ⟨rfl | hx, hne⟩
        · exact Or.inl rfl
        · exact Or.inr ⟨hx, hne⟩

theorem not_mem_jsSetDel_self (s : List String) (k : String) :
    k ∉ jsSetDel s k := by
  intro h
  exact absurd rfl ((mem_jsSetDel_iff s k k).mp h).2

theorem mem_jsAdd_iff (s : List String) (k x : String) :
    x ∈ jsAdd s k ↔ x ∈ s ∨ x = k := by
  by_cases h : k ∈ s
  · simp only [jsAdd, if_pos h]
    constructor
    · exact Or.inl
    · rintro (hx | rfl)
      · exact hx
      · exact h
  · simp [jsAdd, if_neg h]

theorem mem_jsAdd_of_mem (s : List String) (k x : String) (h : x ∈ s) :
    x ∈ jsAdd s k := (mem_jsAdd_iff s k x).mpr (Or.inl h)

/-- Folding `acc + g c` sums `g` over the list. -/
theorem foldl_add_fn {α : Type _} (g : α → Nat) :
    ∀ (l : List α) (init : Nat),
      l.foldl (fun acc c => acc + g c) init = init + (l.map g).sum := by
  intro l
  induction l with
  | nil => intro init; simp
  | cons a l ih =>
    intro init
    simp only [List.foldl_cons, List.map_cons, List.sum_cons, ih]
    omega

/-- Summing a 0/1 indicator counts the satisfying elements. -/
theorem map_sum_eq_countP {α : Type _} (g : α → Nat) (p : α → Bool)
    (hgp : ∀ c, g c = if p c then 1 else 0) :
    ∀ l : List α, (l.map g).sum = l.countP p := by
  intro l
  induction l with
  | nil => rfl
  | cons a l ih =>
    simp only [List.map_cons, List.sum_cons, List.countP_cons, ih, hgp a]
    cases hp : p a <;> simp <;> omega

/-! ## Claim C5 -/

/-- The source's checkpoint-count fold equals the spec's `countP`. -/
theorem checkpointFold_eq_countP (m : List (String × CheckPointState)) :
    ∀ (cps : List SliderCheckPoint) (init : Nat),
      cps.foldl (fun acc c => acc +
          (match jsGet m c.id with
           | some cs => if cs.hit then 1 else 0
           | none => 0)) init =
        init + cps.countP (fun c =>
          match jsGet m c.id with
          | some cs => cs.hit
          | none => false) := by
  intro cps
  induction cps with
  | nil => intro init; simp
  | cons c l ih =>
    intro init
    simp only [List.foldl_cons, List.countP_cons, ih]
    cases hg : jsGet m c.id with
    | none => simp [hg]
    | some cs => cases hh : cs.hit <;> simp [hg, hh] <;> omega

theorem sliderJudgementBasedOnCheckpoints_eq_spec (t h : Nat) :
    sliderJudgementBasedOnCheckpoints t h = sliderVerdictSpec t h := by
  unfold sliderJudgementBasedOnCheckpoints sliderVerdictSpec
  rw [Nat.mul_comm]

/-- C5: `finishSlider` finalizes an absent head as
MISS/SLIDER_FINISHED_FASTER with `judgementTime = slider.endTime`; records
the slider verdict computed from `total = len(checkpoints) + 1` and
`hit = (1 if head verdict ≠ MISS else 0) + number of recorded checkpoint
hits` by the spec's ratio rule; appends the slider id to `judgedObjects`;
and removes the slider from the alive set. -/
theorem C5_finishSlider_spec (ctx : NextFrameEvaluatorCtx) (id : String)
    (slider : Slider) (st : GameState)
    (hs : ctx.beatmap.getSlider id = some slider) :
    (jsGet st.hitCircleState slider.head.id = none →
      jsGet (finishSlider ctx id st).hitCircleState slider.head.id =
        some ⟨slider.endTime, .MISS, some .SLIDER_FINISHED_FASTER⟩) ∧
    jsGet (finishSlider ctx id st).sliderJudgement id =
      some (sliderVerdictSpec (slider.checkPoints.length + 1)
        ((if headRecordedNonMiss (finishSlider ctx id st) slider then 1 else 0) +
          slider.checkPoints.countP (recordedHitIn st))) ∧
    (finishSlider ctx id st).judgedObjects =
      (if jsGet st.hitCircleState slider.head.id = none
        then st.judgedObjects ++ [slider.head.id]
        else st.judgedObjects) ++ [slider.id] ∧
    id ∉ (finishSlider ctx id st).aliveSliderIds := by
  have hpoint : ∀ (m : List (String × CheckPointState)) (c : SliderCheckPoint),
      (match jsGet m c.id with
       | some cs => if cs.hit then 1 else 0
       | none => 0) =
        if (match jsGet m c.id with
            | some cs => cs.hit
            | none => false) = true then 1 else 0 := by
    intro m c
    cases jsGet m c.id with
    | none => rfl
    | some cs => cases cs.hit <;> rfl
  by_cases hhead : jsGet st.hitCircleState slider.head.id = none
  · simp only [finishSlider, hs, hhead, Option.isSome_none, Bool.false_eq_true,
      if_false, if_pos]
    refine ⟨fun _ => ?_, ?_, ?_, ?_⟩
    · simp [finishHitCircle, jsGet_set_self]
    · rw [jsGet_set_self]
      congr 1
      rw [checkpointFold_eq_countP, sliderJudgementBasedOnCheckpoints_eq_spec]
      have hcp : ∀ cps : List SliderCheckPoint,
          cps.countP (fun c =>
            match jsGet (finishHitCircle slider.head.id
              ⟨slider.endTime, .MISS, some .SLIDER_FINISHED_FASTER⟩ st).checkPointState c.id with
            | some cs => cs.hit
            | none => false) = cps.countP (recordedHitIn st) := by
        intro cps
        rfl
      rw [hcp]
      congr 1
      simp [headRecordedNonMiss, finishHitCircle, jsGet_set_self]
    · simp [finishHitCircle]
    · exact not_mem_jsSetDel_self _ _
  · have hsome : (jsGet st.hitCircleState slider.head.id).isSome = true := by
      cases hx : jsGet st.hitCircleState slider.head.id with
      | none => exact absurd hx hhead
      | some j => rfl
    simp only [finishSlider, hs, hsome, if_true, if_neg hhead]
    refine ⟨fun hcon => absurd hcon hhead, ?_, ?_, ?_⟩
    · rw [jsGet_set_self]
      congr 1
      rw [checkpointFold_eq_countP, sliderJudgementBasedOnCheckpoints_eq_spec]
      have hcp : ∀ cps : List SliderCheckPoint,
          cps.countP (fun c =>
            match jsGet st.checkPointState c.id with
            | some cs => cs.hit
            | none => false) = cps.countP (recordedHitIn st) := by
        intro cps
        rfl
      rw [hcp]
      congr 1
      cases hj : jsGet st.hitCircleState slider.head.id with
      | none => exact absurd hj hhead
      | some j =>
        simp only [headRecordedNonMiss, hj]
        cases htype : j.type <;> simp
    · trivial
    · exact not_mem_jsSetDel_self _ _

/-- C5 witness: `finishSlider` on the concrete slider fixture (head unjudged,
one checkpoint recorded hit): head finalized as MISS/SLIDER_FINISHED_FASTER
at `endTime`, verdict from `total = 2`, `hit = 0 + 1`, id appended, slider
removed from the alive set. -/
theorem C5_witness :
    (jsGet stW.hitCircleState sliderW.head.id = none →
      jsGet (finishSlider ctxW "s1" stW).hitCircleState sliderW.head.id =
        some ⟨sliderW.endTime, .MISS, some .SLIDER_FINISHED_FASTER⟩) ∧
    jsGet (finishSlider ctxW "s1" stW).sliderJudgement "s1" =
      some (sliderVerdictSpec (sliderW.checkPoints.length + 1)
        ((if headRecordedNonMiss (finishSlider ctxW "s1" stW) sliderW then 1 else 0) +
          sliderW.checkPoints.countP (recordedHitIn stW))) ∧
    (finishSlider ctxW "s1" stW).judgedObjects =
      (if jsGet stW.hitCircleState sliderW.head.id = none
        then stW.judgedObjects ++ [sliderW.head.id]
        else stW.judgedObjects) ++ [sliderW.id] ∧
    "s1" ∉ (finishSlider ctxW "s1" stW).aliveSliderIds :=
  C5_finishSlider_spec ctxW "s1" sliderW stW (by rfl)

/-! ## pressingSince preservation through the phases -/

theorem handleHitCircle_pressingSince (ctx : NextFrameEvaluatorCtx)
    (tstc ntstc : Option ℚ) (id : String) (st : GameState) :
    (handleHitCircle ctx tstc ntstc id st).pressingSince = st.pressingSince := by
  unfold handleHitCircle
  cases ctx.beatmap.getHitCircle id <;> simp only [] <;> try rfl
  split_ifs <;> rfl

theorem handleHitCircles_pressingSince (ctx : NextFrameEvaluatorCtx)
    (tstc ntstc : Option ℚ) (st : GameState) :
    (handleHitCircles ctx tstc ntstc st).pressingSince = st.pressingSince := by
  unfold handleHitCircles
  exact foldlPres _ _ (fun s a => handleHitCircle_pressingSince ctx tstc ntstc a s) _ st

theorem finishSlider_pressingSince (ctx : NextFrameEvaluatorCtx) (id : String)
    (st : GameState) :
    (finishSlider ctx id st).pressingSince = st.pressingSince := by
  unfold finishSlider
  cases ctx.beatmap.getSlider id <;> simp only [] <;> try rfl
  split_ifs <;> rfl

theorem handleSliderJudgment_pressingSince (ctx : NextFrameEvaluatorCtx) (st : GameState) :
    (handleSliderJudgment ctx st).pressingSince = st.pressingSince := by
  unfold handleSliderJudgment
  refine foldlPres _ _ (fun s a => ?_) _ st
  cases ctx.beatmap.getSlider a <;> simp only [] <;> try rfl
  split_ifs <;> simp [finishSlider_pressingSince]

theorem checkPointLoopStep_pressingSince (ctx : NextFrameEvaluatorCtx) (pt : ℚ)
    (pp : Position) (ops : List ℚ) (sid : String) (st : GameState) :
    (checkPointLoopStep ctx pt pp ops sid st).pressingSince = st.pressingSince := by
  unfold checkPointLoopStep
  cases ctx.beatmap.getSlider sid <;> simp only [] <;> try rfl
  cases jsGet st.nextCheckPointIndex sid <;> simp only [] <;> try rfl
  split <;> try rfl
  split_ifs <;> rfl

theorem checkPointLoop_pressingSince (ctx : NextFrameEvaluatorCtx) (pt : ℚ)
    (pp : Position) (ops : List ℚ) :
    ∀ (fuel : Nat) (st : GameState),
      (checkPointLoop ctx pt pp ops fuel st).pressingSince = st.pressingSince := by
  intro fuel
  induction fuel with
  | zero => intro st; rfl
  | succ n ih =>
    intro st
    unfold checkPointLoop
    cases scanEarliestCheckPoint ctx st.currentTime st.nextCheckPointIndex <;>
      simp only [] <;> try rfl
    rw [ih, checkPointLoopStep_pressingSince]

theorem handleSliderCheckPoints_pressingSince (ctx : NextFrameEvaluatorCtx) (pt : ℚ)
    (pp : Position) (ops : List ℚ) (st : GameState) :
    (handleSliderCheckPoints ctx pt pp ops st).pressingSince = st.pressingSince :=
  checkPointLoop_pressingSince ctx pt pp ops _ st

theorem updateSliderBodyTracking_pressingSince (ctx : NextFrameEvaluatorCtx) (st : GameState) :
    (updateSliderBodyTracking ctx st).pressingSince = st.pressingSince := by
  unfold updateSliderBodyTracking
  refine foldlPres _ _ (fun s a => ?_) _ st
  cases ctx.beatmap.getSlider a <;> rfl

theorem handleSpinners_pressingSince (ctx : NextFrameEvaluatorCtx) (st : GameState) :
    (handleSpinners ctx st).pressingSince = st.pressingSince := by
  unfold handleSpinners
  refine foldlPres _ _ (fun s a => ?_) _ st
  cases ctx.beatmap.getSpinner a <;> simp only [] <;> try rfl
  split_ifs <;> rfl

theorem spawnGo_pressingSince (st : GameState) (objs : List HitObject) :
    (spawnGo st objs).pressingSince = st.pressingSince := by
  induction objs generalizing st with
  | nil => rfl
  | cons obj rest ih =>
    unfold spawnGo
    split_ifs
    · rfl
    · cases obj <;> simp only [] <;> rw [ih]

theorem checkNewAliveHitObjects_pressingSince (ctx : NextFrameEvaluatorCtx) (st : GameState) :
    (checkNewAliveHitObjects ctx st).pressingSince = st.pressingSince :=
  spawnGo_pressingSince st _

/-- The net effect of one `advance` call on `pressingSince` is exactly
`newPressingSince` (GameState.ts line 673); no later phase touches it. -/
theorem evaluateNextFrameMutated_pressingSince (ctx : NextFrameEvaluatorCtx)
    (s : GameState) (f : ReplayFrame) :
    (evaluateNextFrameMutated ctx s f).pressingSince =
      newPressingSince s.pressingSince f.actions f.time := by
  unfold evaluateNextFrameMutated
  rw [handleSpinners_pressingSince, updateSliderBodyTracking_pressingSince,
    handleSliderCheckPoints_pressingSince, handleSliderJudgment_pressingSince,
    handleHitCircles_pressingSince, checkNewAliveHitObjects_pressingSince]

/-- `newPressingSince` on the two-button array, written with `heldAt`. -/
theorem newPressingSince_pair (a b : ℚ) (acts : List OsuAction) (t : ℚ) :
    newPressingSince [a, b] acts t =
      [if heldAt 0 acts then min a t else NOT_PRESSING,
       if heldAt 1 acts then min b t else NOT_PRESSING] := rfl

/-! ## Claim C7 -/

/-- Running the evaluator over frames evolves each `pressingSince` slot to
the spec-side press tracker, provided every frame time stays below the
`NOT_PRESSING` sentinel and times are non-decreasing. -/
theorem C7_run_pressingSince (ctx : NextFrameEvaluatorCtx) :
    ∀ (frames : List ReplayFrame) (s : GameState) (cur0 cur1 : Option ℚ),
      s.pressingSince = [cur0.getD NOT_PRESSING, cur1.getD NOT_PRESSING] →
      frames.Chain' (fun a b => a.time ≤ b.time) →
      (∀ f ∈ frames, f.time < NOT_PRESSING) →
      (∀ p, cur0 = some p → ∀ f, frames.head? = some f → p ≤ f.time) →
      (∀ p, cur1 = some p → ∀ f, frames.head? = some f → p ≤ f.time) →
      (frames.foldl (evaluateNextFrameMutated ctx) s).pressingSince =
        [(pressStartGo 0 cur0 frames).getD NOT_PRESSING,
         (pressStartGo 1 cur1 frames).getD NOT_PRESSING] := by
  intro frames
  induction frames with
  | nil =>
    intro s cur0 cur1 hps _ _ _ _
    simpa [pressStartGo] using hps
  | cons f rest ih =>
    intro s cur0 cur1 hps hchain hbound h0 h1
    have hchain' := List.chain'_cons'.mp hchain
    have hft : f.time < NOT_PRESSING := hbound f (List.mem_cons_self f rest)
    have hcomp : ∀ (cur : Option ℚ) (i : Nat),
        (∀ p, cur = some p → p ≤ f.time) →
        (if heldAt i f.actions then min (cur.getD NOT_PRESSING) f.time
         else NOT_PRESSING) =
          (if heldAt i f.actions then some (cur.getD f.time) else none).getD
            NOT_PRESSING := by
      intro cur i hp
      cases hh : heldAt i f.actions
      · simp
      · cases cur with
        | none => simp [min_eq_right (le_of_lt hft)]
        | some p => simp [min_eq_left (hp p rfl)]
    have hnext : ∀ (cur : Option ℚ) (i : Nat),
        (∀ p, cur = some p → p ≤ f.time) →
        ∀ p, (if heldAt i f.actions then some (cur.getD f.time) else none) = some p →
          ∀ g, rest.head? = some g → p ≤ g.time := by
      intro cur i hp p hpsome g hg
      have hfg : f.time ≤ g.time := hchain'.1 g hg
      cases hh : heldAt i f.actions
      · rw [hh] at hpsome
        simp at hpsome
      · have hpeq : cur.getD f.time = p := by
          rw [hh] at hpsome
          simpa using hpsome
        cases cur with
        | none =>
          have : f.time = p := by simpa using hpeq
          exact this ▸ hfg
        | some q =>
          have hq : q ≤ f.time := hp q rfl
          have : q = p := by simpa using hpeq
          exact this ▸ le_trans hq hfg
    simp only [List.foldl_cons, pressStartGo]
    apply ih
    · rw [evaluateNextFrameMutated_pressingSince, hps, newPressingSince_pair,
        hcomp cur0 0 (fun p hp => h0 p hp f rfl),
        hcomp cur1 1 (fun p hp => h1 p hp f rfl)]
    · exact hchain'.2
    · exact fun g hg => hbound g (List.mem_cons_of_mem f hg)
    · exact hnext cur0 0 (fun p hp => h0 p hp f rfl)
    · exact hnext cur1 1 (fun p hp => h1 p hp f rfl)

/-- C7 counterexample: a single frame at time 727727728 (just above the
`NOT_PRESSING` sentinel) with the left button freshly pressed.  The button is
held in the latest frame and the current press began at the frame's time, yet
`pressing_since[0]` ends up `NOT_PRESSING` (727727727), not the press start
time, and the frame's time does not appear in `pressing_since`. -/
theorem C7_counterexample :
    heldAt 0 frameC7.actions = true ∧
    pressStart 0 [frameC7] = some frameC7.time ∧
    (evaluateNextFrameMutated ctxEmpty defaultReplayState frameC7).pressingSince =
      [NOT_PRESSING, NOT_PRESSING] ∧
    frameC7.time ∉
      (evaluateNextFrameMutated ctxEmpty defaultReplayState frameC7).pressingSince ∧
    NOT_PRESSING ≠ frameC7.time := by
  decide

/-- C7 (amended): for frame sequences fed in non-decreasing time order whose
times stay below the `NOT_PRESSING` sentinel (727727727 ms), after running
the evaluator from the initial state each `pressing_since` slot equals the
earliest frame time of the current uninterrupted press of that button, and
`NOT_PRESSING` whenever the button is not held in the latest frame;
consequently the start time of a current press (in particular a fresh click's
frame time) appears in `pressing_since`. -/
theorem C7_pressingSince_tracks_press_start (ctx : NextFrameEvaluatorCtx)
    (frames : List ReplayFrame)
    (hchain : frames.Chain' (fun a b => a.time ≤ b.time))
    (hbound : ∀ f ∈ frames, f.time < NOT_PRESSING) :
    (runFrames ctx defaultReplayState frames).pressingSince =
      [(pressStart 0 frames).getD NOT_PRESSING,
       (pressStart 1 frames).getD NOT_PRESSING] ∧
    ∀ t i, i < 2 → pressStart i frames = some t →
      t ∈ (runFrames ctx defaultReplayState frames).pressingSince := by
  have hmain := C7_run_pressingSince ctx frames defaultReplayState none none rfl
    hchain hbound (by simp) (by simp)
  refine ⟨hmain, ?_⟩
  intro t i hi hsome
  show t ∈ (frames.foldl (evaluateNextFrameMutated ctx) defaultReplayState).pressingSince
  rw [hmain]
  interval_cases i
  · rw [show pressStart 0 frames = pressStartGo 0 none frames from rfl] at hsome
    rw [hsome]
    simp
  · rw [show pressStart 1 frames = pressStartGo 1 none frames from rfl] at hsome
    rw [hsome]
    simp

/-- C7 witness: the amended claim applied to a concrete two-frame hold of the
left button (pressed at time 10, still held at 20): `pressing_since` ends as
`[10, NOT_PRESSING]`. -/
theorem C7_witness :
    ((runFrames ctxEmpty defaultReplayState framesC7w).pressingSince =
      [(pressStart 0 framesC7w).getD NOT_PRESSING,
       (pressStart 1 framesC7w).getD NOT_PRESSING] ∧
    ∀ t i, i < 2 → pressStart i framesC7w = some t →
      t ∈ (runFrames ctxEmpty defaultReplayState framesC7w).pressingSince) ∧
    (runFrames ctxEmpty defaultReplayState framesC7w).pressingSince =
      [10, NOT_PRESSING] :=
  ⟨C7_pressingSince_tracks_press_start ctxEmpty framesC7w
      (by norm_num [framesC7w, List.chain'_cons]) (by decide),
   by decide⟩

/-! ## Claim C3 -/

/-- C3: the code evaluated at the failing input.  Under the lazer note-lock
policy, a fresh click lands on alive circle "B" (in range, in window) while
the earlier circle "A" note-locks it (`t_next_supposed = 1000 < 1010`).  The
source merely skips the click (the force-miss is an unimplemented TODO at
GameState.ts line 517): no circle is judged, "A" stays alive with no
recorded state, and nothing is appended to `judgedObjects` — in particular no
MISS with reason FORCE_MISS_NOTELOCK is emitted anywhere. -/
theorem C3_lazer_no_force_miss :
    noteLockedFor .LAZER (some 1000) (some 1000) 1010 = true ∧
    jsGet (evaluateNextFrameMutated ctxC3 defaultReplayState frameC3).hitCircleState "A" = none ∧
    "A" ∈ (evaluateNextFrameMutated ctxC3 defaultReplayState frameC3).aliveHitCircleIds ∧
    jsGet (evaluateNextFrameMutated ctxC3 defaultReplayState frameC3).hitCircleState "B" = none ∧
    (evaluateNextFrameMutated ctxC3 defaultReplayState frameC3).judgedObjects = [] := by
  decide

/-! ## Claim C6 -/

/-- C6 counterexample: under `note_lock_style = none`, one frame whose fresh
click lies inside both same-`hitTime` circles hits only the first one; the
second is skipped by the `clickWasUseful` guard and stays alive. -/
theorem C6_counterexample :
    jsGet (evaluateNextFrameMutated ctxC6 defaultReplayState frameC6).hitCircleState "A" =
      some ⟨1000, .GREAT, none⟩ ∧
    jsGet (evaluateNextFrameMutated ctxC6 defaultReplayState frameC6).hitCircleState "B" = none ∧
    "B" ∈ (evaluateNextFrameMutated ctxC6 defaultReplayState frameC6).aliveHitCircleIds := by
  decide

/-! ## hitCircleState / clickWasUseful preservation lemmas -/

theorem spawnGo_hitCircleState (st : GameState) (objs : List HitObject) :
    (spawnGo st objs).hitCircleState = st.hitCircleState := by
  induction objs generalizing st with
  | nil => rfl
  | cons obj rest ih =>
    unfold spawnGo
    split_ifs
    · rfl
    · cases obj <;> simp only [] <;> rw [ih]

theorem spawnGo_clickWasUseful (st : GameState) (objs : List HitObject) :
    (spawnGo st objs).clickWasUseful = st.clickWasUseful := by
  induction objs generalizing st with
  | nil => rfl
  | cons obj rest ih =>
    unfold spawnGo
    split_ifs
    · rfl
    · cases obj <;> simp only [] <;> rw [ih]

theorem finishSlider_clickWasUseful (ctx : NextFrameEvaluatorCtx) (id : String)
    (st : GameState) :
    (finishSlider ctx id st).clickWasUseful = st.clickWasUseful := by
  unfold finishSlider
  cases ctx.beatmap.getSlider id <;> simp only [] <;> try rfl
  split_ifs <;> rfl

theorem handleSliderJudgment_clickWasUseful (ctx : NextFrameEvaluatorCtx) (st : GameState) :
    (handleSliderJudgment ctx st).clickWasUseful = st.clickWasUseful := by
  unfold handleSliderJudgment
  refine foldlPres _ _ (fun s a => ?_) _ st
  cases ctx.beatmap.getSlider a <;> simp only [] <;> try rfl
  split_ifs <;> simp [finishSlider_clickWasUseful]

theorem checkPointLoopStep_hitCircleState (ctx : NextFrameEvaluatorCtx) (pt : ℚ)
    (pp : Position) (ops : List ℚ) (sid : String) (st : GameState) :
    (checkPointLoopStep ctx pt pp ops sid st).hitCircleState = st.hitCircleState := by
  unfold checkPointLoopStep
  cases ctx.beatmap.getSlider sid <;> simp only [] <;> try rfl
  cases jsGet st.nextCheckPointIndex sid <;> simp only [] <;> try rfl
  split <;> try rfl
  split_ifs <;> rfl

theorem checkPointLoop_hitCircleState (ctx : NextFrameEvaluatorCtx) (pt : ℚ)
    (pp : Position) (ops : List ℚ) :
    ∀ (fuel : Nat) (st : GameState),
      (checkPointLoop ctx pt pp ops fuel st).hitCircleState = st.hitCircleState := by
  intro fuel
  induction fuel with
  | zero => intro st; rfl
  | succ n ih =>
    intro st
    unfold checkPointLoop
    cases scanEarliestCheckPoint ctx st.currentTime st.nextCheckPointIndex <;>
      simp only [] <;> try rfl
    rw [ih, checkPointLoopStep_hitCircleState]

theorem handleSliderCheckPoints_hitCircleState (ctx : NextFrameEvaluatorCtx) (pt : ℚ)
    (pp : Position) (ops : List ℚ) (st : GameState) :
    (handleSliderCheckPoints ctx pt pp ops st).hitCircleState = st.hitCircleState :=
  checkPointLoop_hitCircleState ctx pt pp ops _ st

theorem checkPointLoopStep_clickWasUseful (ctx : NextFrameEvaluatorCtx) (pt : ℚ)
    (pp : Position) (ops : List ℚ) (sid : String) (st : GameState) :
    (checkPointLoopStep ctx pt pp ops sid st).clickWasUseful = st.clickWasUseful := by
  unfold checkPointLoopStep
  cases ctx.beatmap.getSlider sid <;> simp only [] <;> try rfl
  cases jsGet st.nextCheckPointIndex sid <;> simp only [] <;> try rfl
  split <;> try rfl
  split_ifs <;> rfl

theorem checkPointLoop_clickWasUseful (ctx : NextFrameEvaluatorCtx) (pt : ℚ)
    (pp : Position) (ops : List ℚ) :
    ∀ (fuel : Nat) (st : GameState),
      (checkPointLoop ctx pt pp ops fuel st).clickWasUseful = st.clickWasUseful := by
  intro fuel
  induction fuel with
  | zero => intro st; rfl
  | succ n ih =>
    intro st
    unfold checkPointLoop
    cases scanEarliestCheckPoint ctx st.currentTime st.nextCheckPointIndex <;>
      simp only [] <;> try rfl
    rw [ih, checkPointLoopStep_clickWasUseful]

theorem handleSliderCheckPoints_clickWasUseful (ctx : NextFrameEvaluatorCtx) (pt : ℚ)
    (pp : Position) (ops : List ℚ) (st : GameState) :
    (handleSliderCheckPoints ctx pt pp ops st).clickWasUseful = st.clickWasUseful :=
  checkPointLoop_clickWasUseful ctx pt pp ops _ st

theorem updateSliderBodyTracking_hitCircleState (ctx : NextFrameEvaluatorCtx) (st : GameState) :
    (updateSliderBodyTracking ctx st).hitCircleState = st.hitCircleState := by
  unfold updateSliderBodyTracking
  refine foldlPres _ _ (fun s a => ?_) _ st
  cases ctx.beatmap.getSlider a <;> rfl

theorem handleSpinners_hitCircleState (ctx : NextFrameEvaluatorCtx) (st : GameState) :
    (handleSpinners ctx st).hitCircleState = st.hitCircleState := by
  unfold handleSpinners
  refine foldlPres _ _ (fun s a => ?_) _ st
  cases ctx.beatmap.getSpinner a <;> simp only [] <;> try rfl
  split_ifs <;> rfl

/-! ## freshHits lemmas and Claim C6 -/

/-- A map entry's key always resolves. -/
theorem jsGet_ne_none_of_mem {V : Type} (m : List (String × V)) (e : String × V)
    (he : e ∈ m) : jsGet m e.1 ≠ none := by
  induction m with
  | nil => cases he
  | cons f rest ih =>
    by_cases hf : f.1 = e.1
    · simp [jsGet, hf]
    · rcases List.mem_cons.mp he with rfl | hmem
      · exact absurd rfl hf
      · simpa [jsGet, hf] using ih hmem

/-- `jsSet` adds at most one entry satisfying a predicate. -/
theorem filter_jsSet_length_le {V : Type} (p : String × V → Bool)
    (m : List (String × V)) (k : String) (v : V) :
    ((jsSet m k v).filter p).length ≤
      (m.filter p).length + (if p (k, v) then 1 else 0) := by
  induction m with
  | nil =>
    simp only [jsSet, List.filter]
    cases hp : p (k, v) <;> simp [hp]
  | cons e rest ih =>
    by_cases he : e.1 = k
    · simp only [jsSet, if_pos he, List.filter_cons]
      cases hp : p (k, v) <;> cases hpe : p e <;> simp [hp, hpe] <;> omega
    · simp only [jsSet, if_neg he, List.filter_cons]
      cases hpe : p e <;> simp [hpe] <;> omega

theorem freshHits_self (sm : List (String × HitCircleState)) : freshHits sm sm = 0 := by
  unfold freshHits
  have : sm.filter (hitEntryFresh sm) = [] := by
    rw [List.filter_eq_nil_iff]
    intro e he
    simp only [hitEntryFresh, Bool.and_eq_true, decide_eq_true_eq, not_and]
    intro hnone
    exact absurd hnone (jsGet_ne_none_of_mem sm e he)
  rw [this]
  rfl

theorem freshHits_jsSet_le (sm m : List (String × HitCircleState)) (k : String)
    (v : HitCircleState) :
    freshHits sm (jsSet m k v) ≤ freshHits sm m + 1 := by
  refine le_trans (filter_jsSet_length_le (hitEntryFresh sm) m k v) ?_
  cases hp : hitEntryFresh sm (k, v) <;> simp [freshHits]

theorem freshHits_jsSet_miss (sm m : List (String × HitCircleState)) (k : String)
    (v : HitCircleState) (hv : v.type = .MISS) :
    freshHits sm (jsSet m k v) ≤ freshHits sm m := by
  have h := filter_jsSet_length_le (hitEntryFresh sm) m k v
  have hp : hitEntryFresh sm (k, v) = false := by
    simp [hitEntryFresh, hv]
  rw [hp] at h
  simpa [freshHits] using h

/-- The three observable shapes of one `handleHitCircle` step: skip, finalize
with a MISS, or finalize with a hit verdict (which requires `clickWasUseful =
false` and sets it). -/
theorem handleHitCircle_shape (ctx : NextFrameEvaluatorCtx)
    (tstc ntstc : Option ℚ) (id : String) (st : GameState) :
    handleHitCircle ctx tstc ntstc id st = st ∨
    (∃ v : HitCircleState, v.type = .MISS ∧
      handleHitCircle ctx tstc ntstc id st = finishHitCircle id v st) ∨
    (∃ v : HitCircleState, v.type ≠ .MISS ∧ st.clickWasUseful = false ∧
      handleHitCircle ctx tstc ntstc id st =
        { finishHitCircle id v st with clickWasUseful := true }) := by
  generalize hr : handleHitCircle ctx tstc ntstc id st = r
  unfold handleHitCircle at hr
  rcases hlook : ctx.beatmap.getHitCircle id with _ | circ <;> rw [hlook] at hr
  · exact Or.inl hr.symm
  · simp only [] at hr
    split_ifs at hr with h1 h2 h3 h4 h5 h6 h7 h8 h9 <;>
      first
        | exact Or.inl hr.symm
        | exact Or.inr (Or.inl ⟨_, rfl, hr.symm⟩)
        | exact Or.inr (Or.inr ⟨_, by simp, by simp_all, hr.symm⟩)

/-- One `handleHitCircle` step keeps the count of freshly recorded non-MISS
verdicts below the `clickWasUseful` indicator. -/
theorem handleHitCircle_freshHits (ctx : NextFrameEvaluatorCtx)
    (tstc ntstc : Option ℚ) (id : String) (sm : List (String × HitCircleState))
    (st : GameState)
    (h : freshHits sm st.hitCircleState ≤ (if st.clickWasUseful then 1 else 0)) :
    freshHits sm (handleHitCircle ctx tstc ntstc id st).hitCircleState ≤
      (if (handleHitCircle ctx tstc ntstc id st).clickWasUseful then 1 else 0) := by
  rcases handleHitCircle_shape ctx tstc ntstc id st with heq | ⟨v, hv, heq⟩ | ⟨v, hv, hflag, heq⟩
  · rw [heq]
    exact h
  · rw [heq]
    show freshHits sm (jsSet st.hitCircleState id v) ≤
      (if st.clickWasUseful then 1 else 0)
    exact le_trans (freshHits_jsSet_miss sm st.hitCircleState id v hv) h
  · rw [heq]
    show freshHits sm (jsSet st.hitCircleState id v) ≤ (if true then 1 else 0)
    have h0 : freshHits sm st.hitCircleState = 0 := by
      rw [hflag] at h
      simpa using h
    refine le_trans (freshHits_jsSet_le sm st.hitCircleState id v) ?_
    simp [h0]

theorem handleHitCircles_freshHits (ctx : NextFrameEvaluatorCtx)
    (tstc ntstc : Option ℚ) (sm : List (String × HitCircleState)) (st : GameState)
    (h : freshHits sm st.hitCircleState ≤ (if st.clickWasUseful then 1 else 0)) :
    freshHits sm (handleHitCircles ctx tstc ntstc st).hitCircleState ≤
      (if (handleHitCircles ctx tstc ntstc st).clickWasUseful then 1 else 0) := by
  unfold handleHitCircles
  generalize sortByKey (hitTimeKey ctx) st.aliveHitCircleIds = l
  induction l generalizing st with
  | nil => exact h
  | cons a l ih =>
    simp only [List.foldl_cons]
    exact ih _ (handleHitCircle_freshHits ctx tstc ntstc a sm st h)

theorem checkNewAliveHitObjects_hitCircleState (ctx : NextFrameEvaluatorCtx) (st : GameState) :
    (checkNewAliveHitObjects ctx st).hitCircleState = st.hitCircleState :=
  spawnGo_hitCircleState st _

theorem checkNewAliveHitObjects_clickWasUseful (ctx : NextFrameEvaluatorCtx) (st : GameState) :
    (checkNewAliveHitObjects ctx st).clickWasUseful = st.clickWasUseful :=
  spawnGo_clickWasUseful st _

theorem finishSlider_freshHits_le (ctx : NextFrameEvaluatorCtx) (id : String)
    (sm : List (String × HitCircleState)) (st : GameState) :
    freshHits sm (finishSlider ctx id st).hitCircleState ≤
      freshHits sm st.hitCircleState := by
  unfold finishSlider
  cases ctx.beatmap.getSlider id
  · exact le_refl _
  · simp only []
    split_ifs
    · exact le_refl _
    · exact freshHits_jsSet_miss sm st.hitCircleState _ _ rfl

theorem handleSliderJudgment_freshHits_le (ctx : NextFrameEvaluatorCtx)
    (sm : List (String × HitCircleState)) (st : GameState) :
    freshHits sm (handleSliderJudgment ctx st).hitCircleState ≤
      freshHits sm st.hitCircleState := by
  unfold handleSliderJudgment
  generalize st.aliveSliderIds = l
  induction l generalizing st with
  | nil => exact le_refl _
  | cons a l ih =>
    simp only [List.foldl_cons]
    refine le_trans (ih _) ?_
    cases ctx.beatmap.getSlider a
    · exact le_refl _
    · simp only []
      split_ifs
      · exact finishSlider_freshHits_le ctx a sm st
      · exact le_refl _

/-- C6 (amended): in every `advance` call, at most one circle is finalized
with a non-MISS (hit) verdict, under every note-lock style — including
`none`.  The `clickWasUseful` guard, which runs before the note-lock policy,
skips every further circle once one hit consumed the click, so two
simultaneously clickable stacked circles are never both hit in one frame. -/
theorem C6_at_most_one_fresh_hit (ctx : NextFrameEvaluatorCtx) (s : GameState)
    (f : ReplayFrame) :
    freshHits s.hitCircleState
      (evaluateNextFrameMutated ctx s f).hitCircleState ≤ 1 := by
  have key : ∀ st2 : GameState, st2.hitCircleState = s.hitCircleState →
      st2.clickWasUseful = false → ∀ tstc ntstc : Option ℚ,
      freshHits s.hitCircleState
        (handleSliderJudgment ctx
          (handleHitCircles ctx tstc ntstc st2)).hitCircleState ≤ 1 := by
    intro st2 hmap hflag tstc ntstc
    refine le_trans (handleSliderJudgment_freshHits_le ctx _ _) ?_
    have h0 : freshHits s.hitCircleState st2.hitCircleState ≤
        (if st2.clickWasUseful then 1 else 0) := by
      rw [hmap, hflag, freshHits_self]
      simp
    refine le_trans (handleHitCircles_freshHits ctx tstc ntstc s.hitCircleState st2 h0) ?_
    split_ifs <;> omega
  unfold evaluateNextFrameMutated
  rw [handleSpinners_hitCircleState, updateSliderBodyTracking_hitCircleState,
    handleSliderCheckPoints_hitCircleState]
  exact key _ (by rw [checkNewAliveHitObjects_hitCircleState])
    (by rw [checkNewAliveHitObjects_clickWasUseful]) _ _

/-! ## Claim C2 -/

theorem mem_insertByKey (key : String → ℚ) (x y : String) :
    ∀ l : List String, y ∈ insertByKey key x l ↔ y = x ∨ y ∈ l := by
  intro l
  induction l with
  | nil => simp [insertByKey]
  | cons a l ih =>
    unfold insertByKey
    split_ifs
    · simp [List.mem_cons]
    · simp only [List.mem_cons, ih]
      tauto

theorem mem_sortByKey (key : String → ℚ) (y : String) :
    ∀ l : List String, y ∈ sortByKey key l ↔ y ∈ l := by
  intro l
  induction l with
  | nil => simp [sortByKey]
  | cons a l ih =>
    unfold sortByKey
    rw [mem_insertByKey, ih, List.mem_cons]

theorem spawnGo_alive_mem (id : String) :
    ∀ (objs : List HitObject) (st : GameState),
      id ∈ st.aliveHitCircleIds → id ∈ (spawnGo st objs).aliveHitCircleIds := by
  intro objs
  induction objs with
  | nil => intro st h; exact h
  | cons obj rest ih =>
    intro st h
    unfold spawnGo
    split_ifs
    · exact h
    · cases obj with
      | circle c => exact ih _ (mem_jsAdd_of_mem _ _ _ h)
      | slider s => exact ih _ (mem_jsAdd_of_mem _ _ _ h)
      | spinner sp => exact ih _ h

/-- Processing a different circle never touches `id`'s recorded state. -/
theorem handleHitCircle_jsGet_ne (ctx : NextFrameEvaluatorCtx)
    (tstc ntstc : Option ℚ) (idp k : String) (st : GameState) (hne : k ≠ idp) :
    jsGet (handleHitCircle ctx tstc ntstc idp st).hitCircleState k =
      jsGet st.hitCircleState k := by
  rcases handleHitCircle_shape ctx tstc ntstc idp st with heq | ⟨v, _, heq⟩ | ⟨v, _, _, heq⟩ <;>
    rw [heq]
  · exact jsGet_set_ne st.hitCircleState idp k v hne
  · exact jsGet_set_ne st.hitCircleState idp k v hne

/-- A circle past its MEH deadline is finalized by the first branch of
`handleHitCircle` (GameState.ts lines 449-460), regardless of clicks. -/
theorem handleHitCircle_timeout (ctx : NextFrameEvaluatorCtx)
    (tstc ntstc : Option ℚ) (id : String) (st : GameState) (h : HitCircle)
    (hlook : ctx.beatmap.getHitCircle id = some h)
    (hdead : h.hitTime + hitWindow ctx .MEH + 1 ≤ st.currentTime) :
    handleHitCircle ctx tstc ntstc id st =
      finishHitCircle id
        ⟨h.hitTime + hitWindow ctx .MEH + 1, .MISS, some .TIME_EXPIRED⟩ st := by
  unfold handleHitCircle
  rw [hlook]
  simp only []
  rw [if_pos hdead]

theorem foldHitCircles_jsGet_not_mem (ctx : NextFrameEvaluatorCtx)
    (tstc ntstc : Option ℚ) (k : String) :
    ∀ (l : List String) (st : GameState), k ∉ l →
      jsGet (l.foldl (fun s i => handleHitCircle ctx tstc ntstc i s) st).hitCircleState k =
        jsGet st.hitCircleState k := by
  intro l
  induction l with
  | nil => intro st _; rfl
  | cons a l ih =>
    intro st hk
    simp only [List.foldl_cons]
    rw [ih _ (fun hc => hk (List.mem_cons_of_mem a hc)),
      handleHitCircle_jsGet_ne ctx tstc ntstc a k st
        (fun he => hk (he ▸ List.mem_cons_self a l))]

theorem foldHitCircles_timeout (ctx : NextFrameEvaluatorCtx)
    (tstc ntstc : Option ℚ) (id : String) (h : HitCircle) (T : ℚ)
    (hlook : ctx.beatmap.getHitCircle id = some h)
    (hdead : h.hitTime + hitWindow ctx .MEH + 1 ≤ T) :
    ∀ (l : List String) (st : GameState), st.currentTime = T → id ∈ l →
      jsGet (l.foldl (fun s i => handleHitCircle ctx tstc ntstc i s) st).hitCircleState id =
        some ⟨h.hitTime + hitWindow ctx .MEH + 1, .MISS, some .TIME_EXPIRED⟩ := by
  intro l
  induction l with
  | nil => intro st _ hm; cases hm
  | cons a l ih =>
    intro st hT hm
    simp only [List.foldl_cons]
    by_cases hidl : id ∈ l
    · exact ih _ (by rw [handleHitCircle_currentTime]; exact hT) hidl
    · have ha : a = id := by
        rcases List.mem_cons.mp hm with h' | h'
        · exact h'.symm
        · exact absurd h' hidl
      subst ha
      rw [foldHitCircles_jsGet_not_mem ctx tstc ntstc a l _ hidl,
        handleHitCircle_timeout ctx tstc ntstc a st h hlook (by rw [hT]; exact hdead)]
      exact jsGet_set_self st.hitCircleState a _

/-- `finishSlider` never overwrites an already-recorded circle state. -/
theorem finishSlider_jsGet_some (ctx : NextFrameEvaluatorCtx) (sid k : String)
    (st : GameState) (v : HitCircleState)
    (hk : jsGet st.hitCircleState k = some v) :
    jsGet (finishSlider ctx sid st).hitCircleState k = some v := by
  unfold finishSlider
  cases hl : ctx.beatmap.getSlider sid with
  | none => exact hk
  | some slider =>
    simp only []
    split_ifs with hhead
    · exact hk
    · by_cases hkh : k = slider.head.id
      · rw [hkh] at hk
        rw [hk] at hhead
        exact absurd rfl hhead
      · show jsGet (jsSet st.hitCircleState slider.head.id _) k = some v
        rw [jsGet_set_ne st.hitCircleState slider.head.id k _ hkh]
        exact hk

theorem handleSliderJudgment_jsGet_some (ctx : NextFrameEvaluatorCtx)
    (k : String) (v : HitCircleState) :
    ∀ (l : List String) (st : GameState), jsGet st.hitCircleState k = some v →
      jsGet ((l.foldl (fun s i =>
        match ctx.beatmap.getSlider i with
        | none => s
        | some slider => if slider.endTime ≤ s.currentTime then finishSlider ctx i s else s)
          st)).hitCircleState k = some v := by
  intro l
  induction l with
  | nil => intro st hk; exact hk
  | cons a l ih =>
    intro st hk
    simp only [List.foldl_cons]
    refine ih _ ?_
    cases hl : ctx.beatmap.getSlider a
    · exact hk
    · simp only []
      split_ifs
      · exact finishSlider_jsGet_some ctx a k st v hk
      · exact hk

/-- C2: (a) at the `advance` level, an alive circle whose MEH deadline
`hit_time + meh_window + 1` has passed is finalized in that call as
MISS/TIME_EXPIRED with `judgement_time` equal to the deadline, not the frame
time; (b) at the circle-resolution level, a fresh in-range un-consumed
not-note-locked click at exactly `current_time = hit_time + meh_window` is
still finalized MEH with `judgement_time = current_time` (for any window
table with `great < meh`, `ok < meh`, `0 ≤ meh`). -/
theorem C2_timeout_and_meh_boundary :
    (∀ (ctx : NextFrameEvaluatorCtx) (s : GameState) (f : ReplayFrame)
        (id : String) (h : HitCircle),
      ctx.beatmap.getHitCircle id = some h →
      id ∈ s.aliveHitCircleIds →
      h.hitTime + hitWindow ctx .MEH + 1 ≤ f.time →
      jsGet (evaluateNextFrameMutated ctx s f).hitCircleState id =
        some ⟨h.hitTime + hitWindow ctx .MEH + 1, .MISS, some .TIME_EXPIRED⟩) ∧
    (∀ (ctx : NextFrameEvaluatorCtx) (tstc ntstc : Option ℚ) (id : String)
        (h : HitCircle) (st : GameState),
      ctx.beatmap.getHitCircle id = some h →
      st.currentTime = h.hitTime + hitWindow ctx .MEH →
      hitWindow ctx .GREAT < hitWindow ctx .MEH →
      hitWindow ctx .OK < hitWindow ctx .MEH →
      0 ≤ hitWindow ctx .MEH →
      hasFreshClickThisFrame st = true →
      st.clickWasUseful = false →
      Vec2.distSq h.position st.cursorPosition ≤ h.radius * h.radius →
      noteLockedFor ctx.noteLockStyle tstc ntstc h.hitTime = false →
      jsGet (handleHitCircle ctx tstc ntstc id st).hitCircleState id =
          some ⟨st.currentTime, .MEH, none⟩ ∧
        (handleHitCircle ctx tstc ntstc id st).clickWasUseful = true) := by
  constructor
  · intro ctx s f id h hlook halive hdead
    unfold evaluateNextFrameMutated
    rw [handleSpinners_hitCircleState, updateSliderBodyTracking_hitCircleState,
      handleSliderCheckPoints_hitCircleState]
    refine handleSliderJudgment_jsGet_some ctx id _ _ _ ?_
    refine foldHitCircles_timeout ctx _ _ id h f.time hlook hdead _ _ ?_ ?_
    · rw [checkNewAliveHitObjects_currentTime]
    · rw [mem_sortByKey]
      exact spawnGo_alive_mem id _ _ halive
  · intro ctx tstc ntstc id h st hlook hT hgreat hok h0 hfresh hflag hd hlock
    have hdelta : st.currentTime - h.hitTime = hitWindow ctx .MEH := by
      rw [hT]
      ring
    have habs : |st.currentTime - h.hitTime| = hitWindow ctx .MEH := by
      rw [hdelta]
      exact abs_of_nonneg h0
    have hbranch : handleHitCircle ctx tstc ntstc id st =
        { finishHitCircle id ⟨st.currentTime, .MEH, none⟩ st with clickWasUseful := true } := by
      unfold handleHitCircle
      rw [hlook]
      simp only []
      rw [if_neg (show ¬ (h.hitTime + hitWindow ctx .MEH + 1 ≤ st.currentTime) by
            rw [hT]; intro hcon; linarith),
        if_neg (not_not_intro hfresh),
        if_neg (show ¬ st.clickWasUseful = true by rw [hflag]; simp),
        if_neg (not_lt.mpr hd),
        if_neg (show ¬ noteLockedFor ctx.noteLockStyle tstc ntstc h.hitTime = true by
            rw [hlock]; simp),
        if_neg (show ¬ isWithinHitWindow ctx (st.currentTime - h.hitTime) .GREAT = true by
            simp only [isWithinHitWindow, habs, decide_eq_true_eq]
            exact not_le.mpr hgreat),
        if_neg (show ¬ isWithinHitWindow ctx (st.currentTime - h.hitTime) .OK = true by
            simp only [isWithinHitWindow, habs, decide_eq_true_eq]
            exact not_le.mpr hok),
        if_pos (show isWithinHitWindow ctx (st.currentTime - h.hitTime) .MEH = true by
            simp only [isWithinHitWindow, habs, decide_eq_true_eq]
            exact le_refl _)]
    rw [hbranch]
    exact ⟨jsGet_set_self st.hitCircleState id _, rfl⟩

/-- C2 witness: (a) the lone circle, alive and past its deadline at the
frame t = 1101, gets MISS/TIME_EXPIRED at judgement time 1101 (= deadline,
also spec §8 scenario 4); (b) a fresh in-range click at exactly
t = 1000 + meh = 1100 is judged MEH at 1100. -/
theorem C2_witness :
    jsGet (evaluateNextFrameMutated ctxA stC2a frameC2a).hitCircleState "A" =
      some ⟨circA.hitTime + hitWindow ctxA .MEH + 1, .MISS, some .TIME_EXPIRED⟩ ∧
    (jsGet (handleHitCircle ctxA (some 1000) (some 1000) "A" stC2b).hitCircleState "A" =
        some ⟨stC2b.currentTime, .MEH, none⟩ ∧
      (handleHitCircle ctxA (some 1000) (some 1000) "A" stC2b).clickWasUseful = true) :=
  ⟨C2_timeout_and_meh_boundary.1 ctxA stC2a frameC2a "A" circA (by rfl) (by decide) (by decide),
   C2_timeout_and_meh_boundary.2 ctxA (some 1000) (some 1000) "A" circA stC2b (by rfl)
     (by decide) (by decide) (by decide) (by decide) (by decide) (by decide)
     (by decide) (by decide)⟩

/-! ## Claim C8 -/

/-- `scanStep` in terms of the entry's pending-checkpoint time. -/
theorem scanStep_eq (ctx : NextFrameEvaluatorCtx) (now : ℚ) (accs : Option String)
    (accT : ℚ) (e : String × Nat) :
    scanStep ctx now (accs, accT) e =
      match pendingCheckPointTime ctx now e with
      | none => (accs, accT)
      | some t => if t < accT then (some e.1, t) else (accs, accT) := by
  unfold scanStep pendingCheckPointTime
  cases ctx.beatmap.getSlider e.1 with
  | none => rfl
  | some slider =>
    simp only []
    cases slider.checkPoints[e.2]? with
    | none => rfl
    | some cp =>
      simp only []
      by_cases h1 : cp.hitTime < now
      · by_cases h2 : cp.hitTime < accT
        · simp [h1, h2]
        · simp [h1, h2]
      · simp [h1]

/-- The selection fold keeps the accumulator when no entry improves on it,
and otherwise returns the first entry attaining the minimal pending time
below the accumulator. -/
theorem scanFold_spec (ctx : NextFrameEvaluatorCtx) (now : ℚ) :
    ∀ (entries : List (String × Nat)) (accs : Option String) (accT : ℚ),
      (entries.foldl (scanStep ctx now) (accs, accT) = (accs, accT) ∧
        (∀ e ∈ entries, ∀ t, pendingCheckPointTime ctx now e = some t → accT ≤ t)) ∨
      (∃ i e t, entries[i]? = some e ∧
        pendingCheckPointTime ctx now e = some t ∧ t < accT ∧
        entries.foldl (scanStep ctx now) (accs, accT) = (some e.1, t) ∧
        (∀ e' ∈ entries, ∀ t', pendingCheckPointTime ctx now e' = some t' → t ≤ t') ∧
        (∀ j : Nat, j < i → ∀ e' t', entries[j]? = some e' →
          pendingCheckPointTime ctx now e' = some t' → t < t')) := by
  intro entries
  induction entries with
  | nil =>
    intro accs accT
    left
    exact ⟨rfl, fun e he => absurd he (List.not_mem_nil e)⟩
  | cons e0 rest ih =>
    intro accs accT
    simp only [List.foldl_cons, scanStep_eq]
    cases hp0 : pendingCheckPointTime ctx now e0 with
    | none =>
      simp only []
      rcases ih accs accT with ⟨hfold, hall⟩ | ⟨i, e, t, hget, hpt, hlt, hfold, hmin, hfirst⟩
      · left
        refine ⟨hfold, ?_⟩
        intro e' he' t' hpt'
        rcases List.mem_cons.mp he' with rfl | hmem
        · rw [hp0] at hpt'
          cases hpt'
        · exact hall e' hmem t' hpt'
      · right
        refine ⟨i + 1, e, t, by simpa using hget, hpt, hlt, hfold, ?_, ?_⟩
        · intro e' he' t' hpt'
          rcases List.mem_cons.mp he' with rfl | hmem
          · rw [hp0] at hpt'
            cases hpt'
          · exact hmin e' hmem t' hpt'
        · intro j hj e' t' hget' hpt'
          cases j with
          | zero =>
            have he' : e0 = e' := by simpa using hget'
            rw [← he', hp0] at hpt'
            cases hpt'
          | succ j' =>
            exact hfirst j' (by omega) e' t' (by simpa using hget') hpt'
    | some t0 =>
      simp only []
      by_cases ht0 : t0 < accT
      · rw [if_pos ht0]
        rcases ih (some e0.1) t0 with ⟨hfold, hall⟩ | ⟨i, e, t, hget, hpt, hlt, hfold, hmin, hfirst⟩
        · right
          refine ⟨0, e0, t0, by simp, hp0, ht0, hfold, ?_, ?_⟩
          · intro e' he' t' hpt'
            rcases List.mem_cons.mp he' with rfl | hmem
            · rw [hp0] at hpt'
              injection hpt' with h'
              exact le_of_eq h'
            · exact hall e' hmem t' hpt'
          · intro j hj
            exact absurd hj (Nat.not_lt_zero j)
        · right
          refine ⟨i + 1, e, t, by simpa using hget, hpt, lt_trans hlt ht0, hfold, ?_, ?_⟩
          · intro e' he' t' hpt'
            rcases List.mem_cons.mp he' with rfl | hmem
            · rw [hp0] at hpt'
              injection hpt' with h'
              exact le_of_lt (h' ▸ hlt)
            · exact hmin e' hmem t' hpt'
          · intro j hj e' t' hget' hpt'
            cases j with
            | zero =>
              have he' : e0 = e' := by simpa using hget'
              rw [← he', hp0] at hpt'
              injection hpt' with h'
              exact h' ▸ hlt
            | succ j' =>
              exact hfirst j' (by omega) e' t' (by simpa using hget') hpt'
      · rw [if_neg ht0]
        rcases ih accs accT with ⟨hfold, hall⟩ | ⟨i, e, t, hget, hpt, hlt, hfold, hmin, hfirst⟩
        · left
          refine ⟨hfold, ?_⟩
          intro e' he' t' hpt'
          rcases List.mem_cons.mp he' with rfl | hmem
          · rw [hp0] at hpt'
            injection hpt' with h'
            rw [← h']
            exact not_lt.mp ht0
          · exact hall e' hmem t' hpt'
        · right
          refine ⟨i + 1, e, t, by simpa using hget, hpt, hlt, hfold, ?_, ?_⟩
          · intro e' he' t' hpt'
            rcases List.mem_cons.mp he' with rfl | hmem
            · rw [hp0] at hpt'
              injection hpt' with h'
              exact le_of_lt (h' ▸ lt_of_lt_of_le hlt (not_lt.mp ht0))
            · exact hmin e' hmem t' hpt'
          · intro j hj e' t' hget' hpt'
            cases j with
            | zero =>
              have he' : e0 = e' := by simpa using hget'
              rw [← he', hp0] at hpt'
              injection hpt' with h'
              exact h' ▸ lt_of_lt_of_le hlt (not_lt.mp ht0)
            | succ j' =>
              exact hfirst j' (by omega) e' t' (by simpa using hget') hpt'

/-- C8 counterexample: the same two sliders, each with a checkpoint at the
same hit time 100, judged at t = 150.  With spawn order "b" then "a" the
checkpoints are recorded `["bc", "ac"]`; with spawn order "a" then "b" they
are recorded `["ac", "bc"]`.  The ids are identical in both runs, so no
order on slider ids can explain both outcomes: equal-time ties are broken by
`nextCheckPointIndex` insertion (spawn) order, not by slider id order. -/
theorem C8_counterexample :
    (evaluateNextFrameMutated ctxC8ba defaultReplayState frameC8).judgedObjects =
      ["bc", "ac"] ∧
    (evaluateNextFrameMutated ctxC8ab defaultReplayState frameC8).judgedObjects =
      ["ac", "bc"] := by
  decide

/-- C8 (amended): in each iteration, the checkpoint scan selects the entry
of `nextCheckPointIndex` whose pending checkpoint has the globally smallest
`hitTime` among those with `hitTime < current_time` (and below the scan's
`1e18` sentinel), breaking equal-time ties by the entry's position in the
map — its insertion (spawn) order — not by slider id; when no entry
qualifies, nothing is selected.  Each loop iteration then records the
selected checkpoint's state and appends exactly its id to `judgedObjects`
before rescanning, so the ids are appended in selection order. -/
theorem C8_scan_first_min (ctx : NextFrameEvaluatorCtx) (now : ℚ)
    (entries : List (String × Nat)) :
    (scanEarliestCheckPoint ctx now entries = none →
      ∀ e ∈ entries, selectableCheckPointTime ctx now e = none) ∧
    (∀ sid, scanEarliestCheckPoint ctx now entries = some sid →
      ∃ i e t, entries[i]? = some e ∧ e.1 = sid ∧
        selectableCheckPointTime ctx now e = some t ∧
        (∀ e' ∈ entries, ∀ t', selectableCheckPointTime ctx now e' = some t' → t ≤ t') ∧
        (∀ j : Nat, j < i → ∀ e' t', entries[j]? = some e' →
          selectableCheckPointTime ctx now e' = some t' → t < t')) ∧
    (∀ (pt : ℚ) (pp : Position) (ops : List ℚ) (st : GameState) (n : Nat)
        (sid : String) (slider : Slider) (index : Nat) (cp : SliderCheckPoint),
      scanEarliestCheckPoint ctx st.currentTime st.nextCheckPointIndex = some sid →
      ctx.beatmap.getSlider sid = some slider →
      jsGet st.nextCheckPointIndex sid = some index →
      slider.checkPoints[index]? = some cp →
      ∃ b : Bool,
        checkPointLoop ctx pt pp ops (n + 1) st =
          checkPointLoop ctx pt pp ops n (checkPointLoopStep ctx pt pp ops sid st) ∧
        (checkPointLoopStep ctx pt pp ops sid st).judgedObjects =
          st.judgedObjects ++ [cp.id] ∧
        jsGet (checkPointLoopStep ctx pt pp ops sid st).checkPointState cp.id =
          some ⟨b⟩) := by
  have hsel_pending : ∀ e t, selectableCheckPointTime ctx now e = some t →
      pendingCheckPointTime ctx now e = some t ∧ t < 1000000000000000000 := by
    intro e t hsel
    unfold selectableCheckPointTime at hsel
    split at hsel
    · cases hsel
    · rename_i t' heq
      split at hsel
      · rename_i hb
        injection hsel with h'
        exact ⟨h' ▸ heq, h' ▸ hb⟩
      · cases hsel
  refine ⟨?_, ?_, ?_⟩
  · intro hnone e he
    rcases scanFold_spec ctx now entries none 1000000000000000000 with
      ⟨hfold, hall⟩ | ⟨i, e', t, hget, hpt, hlt, hfold, hmin, hfirst⟩
    · cases hsel : selectableCheckPointTime ctx now e with
      | none => rfl
      | some t =>
        rcases hsel_pending e t hsel with ⟨hp, hb⟩
        exact absurd hb (not_lt.mpr (hall e he t hp))
    · unfold scanEarliestCheckPoint at hnone
      rw [hfold] at hnone
      cases hnone
  · intro sid hsid
    rcases scanFold_spec ctx now entries none 1000000000000000000 with
      ⟨hfold, hall⟩ | ⟨i, e, t, hget, hpt, hlt, hfold, hmin, hfirst⟩
    · unfold scanEarliestCheckPoint at hsid
      rw [hfold] at hsid
      cases hsid
    · unfold scanEarliestCheckPoint at hsid
      rw [hfold] at hsid
      have hesid : e.1 = sid := by
        simpa using hsid
      refine ⟨i, e, t, hget, hesid, ?_, ?_, ?_⟩
      · simp only [selectableCheckPointTime, hpt]
        rw [if_pos hlt]
      · intro e' he' t' hsel'
        exact hmin e' he' t' (hsel_pending e' t' hsel').1
      · intro j hj e' t' hget' hsel'
        exact hfirst j hj e' t' hget' (hsel_pending e' t' hsel').1
  · intro pt pp ops st n sid slider index cp hscan hsl hidx hcp
    refine ⟨(determineTracking
        (match jsGet st.sliderBodyState slider.id with
         | some b => b.isTracking
         | none => false)
        slider
        (predictedPositionAt pt pp st.currentTime st.cursorPosition
          ((⌈cp.hitTime - 1 / 10000000000⌉ : ℤ) : ℚ))
        ((⌈cp.hitTime - 1 / 10000000000⌉ : ℤ) : ℚ) ops
        (headHitTime st slider.head.id)), ?_, ?_, ?_⟩
    · conv_lhs => rw [checkPointLoop]
      rw [hscan]
    · unfold checkPointLoopStep
      rw [hsl]
      simp only []
      rw [hidx]
      simp only []
      rw [hcp]
      simp only []
      split_ifs <;> rfl
    · unfold checkPointLoopStep
      rw [hsl]
      simp only []
      rw [hidx]
      simp only []
      rw [hcp]
      simp only []
      split_ifs
      · show jsGet (jsSet st.checkPointState cp.id _) cp.id = _
        rw [jsGet_set_self]
      · show jsGet (jsSet st.checkPointState cp.id _) cp.id = _
        rw [jsGet_set_self]

/-- C8 witness: the scan characterization applied to the concrete entry list
`[("b", 0), ("a", 0)]` at t = 150, where the scan selects "b". -/
theorem C8_witness :
    ∃ i e t, ([("b", 0), ("a", 0)] : List (String × Nat))[i]? = some e ∧
      e.1 = "b" ∧
      selectableCheckPointTime ctxC8ba 150 e = some t ∧
      (∀ e' ∈ ([("b", 0), ("a", 0)] : List (String × Nat)), ∀ t',
        selectableCheckPointTime ctxC8ba 150 e' = some t' → t ≤ t') ∧
      (∀ j : Nat, j < i → ∀ e' t',
        ([("b", 0), ("a", 0)] : List (String × Nat))[j]? = some e' →
        selectableCheckPointTime ctxC8ba 150 e' = some t' → t < t') :=
  (C8_scan_first_min ctxC8ba 150 [("b", 0), ("a", 0)]).2.1 "b" (by decide)

/-! ## Claim C10: id uniqueness infrastructure -/

/-- An element of a list is counted at least once. -/
theorem one_le_count_of_mem (x : String) :
    ∀ l : List String, x ∈ l → 1 ≤ l.count x := by
  intro l
  induction l with
  | nil => intro h; cases h
  | cons a l ih =>
    intro h
    rcases List.mem_cons.mp h with rfl | hm
    · rw [List.count_cons_self]
      omega
    · rw [List.count_cons]
      have := ih hm
      split_ifs <;> omega

/-- Appending a different element keeps the count. -/
theorem count_append_ne (l : List String) (a y : String) (h : a ≠ y) :
    (l ++ [a]).count y = l.count y := by
  rw [List.count_append, List.count_cons, List.count_nil]
  split_ifs with hb
  · exact absurd (by simpa using hb) h
  · omega

/-- The per-object id list is counted inside the full id list. -/
theorem count_listIds_le (x : String) (o : HitObject) :
    ∀ objs : List HitObject, o ∈ objs →
      (objIds o).count x ≤ (listIds objs).count x := by
  intro objs
  induction objs with
  | nil => intro h; cases h
  | cons a rest ih =>
    intro h
    show (objIds o).count x ≤ (objIds a ++ listIds rest).count x
    rw [List.count_append]
    rcases List.mem_cons.mp h with rfl | hm
    · omega
    · have := ih hm
      omega

/-- Two distinct objects of the list contribute their id counts jointly. -/
theorem count_listIds_pair (x : String) (o p : HitObject) (hne : o ≠ p) :
    ∀ objs : List HitObject, o ∈ objs → p ∈ objs →
      (objIds o).count x + (objIds p).count x ≤ (listIds objs).count x := by
  intro objs
  induction objs with
  | nil => intro h; cases h
  | cons a rest ih =>
    intro ho hp
    show _ ≤ (objIds a ++ listIds rest).count x
    rw [List.count_append]
    rcases List.mem_cons.mp ho with rfl | hmo
    · have hpr : p ∈ rest := by
        rcases List.mem_cons.mp hp with h1 | h1
        · exact absurd h1.symm hne
        · exact h1
      have := count_listIds_le x p rest hpr
      omega
    · rcases List.mem_cons.mp hp with rfl | hmp
      · have := count_listIds_le x o rest hmo
        omega
      · have := ih hmo hmp
        omega

theorem one_le_count_objIds_id (sl : Slider) :
    1 ≤ (objIds (.slider sl)).count sl.id :=
  one_le_count_of_mem _ _ (by simp [objIds])

theorem one_le_count_objIds_head (sl : Slider) :
    1 ≤ (objIds (.slider sl)).count sl.head.id :=
  one_le_count_of_mem _ _ (by simp [objIds])

theorem one_le_count_objIds_cp (sl : Slider) (c : SliderCheckPoint)
    (hc : c ∈ sl.checkPoints) :
    1 ≤ (objIds (.slider sl)).count c.id :=
  one_le_count_of_mem _ _ (by
    simp only [objIds, List.mem_cons]
    exact Or.inr (Or.inr (List.mem_map_of_mem _ hc)))

theorem one_le_count_objIds_circle (h : HitCircle) :
    1 ≤ (objIds (.circle h)).count h.id :=
  one_le_count_of_mem _ _ (by simp [objIds])

theorem one_le_count_objIds_spinner (sp : Spinner) :
    1 ≤ (objIds (.spinner sp)).count sp.id :=
  one_le_count_of_mem _ _ (by simp [objIds])

/-- A slider whose head id coincides with one of its checkpoint ids carries
that id twice. -/
theorem two_le_count_objIds_head_cp (sl : Slider) (c : SliderCheckPoint)
    (hc : c ∈ sl.checkPoints) (he : sl.head.id = c.id) :
    2 ≤ (objIds (.slider sl)).count c.id := by
  have h1 : 1 ≤ (sl.checkPoints.map (fun cp => cp.id)).count c.id :=
    one_le_count_of_mem _ _ (List.mem_map_of_mem _ hc)
  show 2 ≤ (sl.id :: sl.head.id :: sl.checkPoints.map (fun cp => cp.id)).count c.id
  rw [he, List.count_cons, List.count_cons_self]
  split_ifs <;> omega

/-- A slider whose own id coincides with one of its checkpoint ids carries
that id twice. -/
theorem two_le_count_objIds_id_cp (sl : Slider) (c : SliderCheckPoint)
    (hc : c ∈ sl.checkPoints) (he : sl.id = c.id) :
    2 ≤ (objIds (.slider sl)).count c.id := by
  have h1 : 1 ≤ (sl.checkPoints.map (fun cp => cp.id)).count c.id :=
    one_le_count_of_mem _ _ (List.mem_map_of_mem _ hc)
  show 2 ≤ (sl.id :: sl.head.id :: sl.checkPoints.map (fun cp => cp.id)).count c.id
  rw [he, List.count_cons_self, List.count_cons]
  split_ifs <;> omega

/-- A successful `getSlider` lookup returns a slider of the beatmap whose id
is the queried key. -/
theorem getSlider_mem (b : Beatmap) (x : String) (sl : Slider)
    (hx : b.getSlider x = some sl) :
    sl.id = x ∧ HitObject.slider sl ∈ b.hitObjects := by
  unfold Beatmap.getSlider at hx
  obtain ⟨o, ho, hfo⟩ := List.exists_of_findSome?_eq_some hx
  cases o with
  | circle c => cases hfo
  | spinner sp => cases hfo
  | slider s =>
    simp only [] at hfo
    split_ifs at hfo with hid
    · injection hfo with h1
      subst h1
      exact ⟨hid, ho⟩

/-- A successful `getHitCircle` lookup returns a standalone circle or a
slider head of the beatmap whose id is the queried key. -/
theorem getHitCircle_mem (b : Beatmap) (x : String) (h : HitCircle)
    (hx : b.getHitCircle x = some h) :
    h.id = x ∧ (HitObject.circle h ∈ b.hitObjects ∨
      ∃ sl : Slider, HitObject.slider sl ∈ b.hitObjects ∧ sl.head = h) := by
  unfold Beatmap.getHitCircle at hx
  obtain ⟨o, ho, hfo⟩ := List.exists_of_findSome?_eq_some hx
  cases o with
  | circle c =>
    simp only [] at hfo
    split_ifs at hfo with hid
    · injection hfo with h1
      subst h1
      exact ⟨hid, Or.inl ho⟩
  | slider s =>
    simp only [] at hfo
    split_ifs at hfo with hid
    · injection hfo with h1
      subst h1
      exact ⟨hid, Or.inr ⟨s, ho, rfl⟩⟩
  | spinner sp => cases hfo

/-- A successful `getSpinner` lookup returns a spinner of the beatmap whose
id is the queried key. -/
theorem getSpinner_mem (b : Beatmap) (x : String) (sp : Spinner)
    (hx : b.getSpinner x = some sp) :
    sp.id = x ∧ HitObject.spinner sp ∈ b.hitObjects := by
  unfold Beatmap.getSpinner at hx
  obtain ⟨o, ho, hfo⟩ := List.exists_of_findSome?_eq_some hx
  cases o with
  | circle c => cases hfo
  | slider s => cases hfo
  | spinner q =>
    simp only [] at hfo
    split_ifs at hfo with hid
    · injection hfo with h1
      subst h1
      exact ⟨hid, ho⟩

/-- Under the id-uniqueness hygiene condition, a checkpoint id of one slider
collides with no other id of the beatmap: not with any circle id, any slider
or head id, any spinner id, nor any checkpoint id of a different slider. -/
theorem cp_id_distinct (b : Beatmap) (hnd : (beatmapIds b).Nodup)
    (slider : Slider) (hmem : HitObject.slider slider ∈ b.hitObjects)
    (c : SliderCheckPoint) (hc : c ∈ slider.checkPoints) :
    (∀ h : HitCircle, HitObject.circle h ∈ b.hitObjects → h.id ≠ c.id) ∧
    (∀ sl : Slider, HitObject.slider sl ∈ b.hitObjects →
      sl.id ≠ c.id ∧ sl.head.id ≠ c.id) ∧
    (∀ sp : Spinner, HitObject.spinner sp ∈ b.hitObjects → sp.id ≠ c.id) ∧
    (∀ sl : Slider, HitObject.slider sl ∈ b.hitObjects → sl.id ≠ slider.id →
      ∀ cp ∈ sl.checkPoints, cp.id ≠ c.id) := by
  have hcnt : ∀ y : String, (listIds b.hitObjects).count y ≤ 1 := fun y =>
    List.nodup_iff_count_le_one.mp hnd y
  have hcp1 : 1 ≤ (objIds (.slider slider)).count c.id :=
    one_le_count_objIds_cp slider c hc
  refine ⟨?_, ?_, ?_, ?_⟩
  · intro h hmemh heq
    have h1 : 1 ≤ (objIds (.circle h)).count c.id := by
      rw [← heq]
      exact one_le_count_objIds_circle h
    have hne : HitObject.circle h ≠ HitObject.slider slider := fun hcon =>
      HitObject.noConfusion hcon
    have h2 := count_listIds_pair c.id _ _ hne b.hitObjects hmemh hmem
    have h3 := hcnt c.id
    omega
  · intro sl hmemsl
    constructor
    · intro heq
      by_cases hss : sl = slider
      · subst hss
        have h1 := two_le_count_objIds_id_cp sl c hc heq
        have h2 := count_listIds_le c.id _ b.hitObjects hmemsl
        have h3 := hcnt c.id
        omega
      · have hne : HitObject.slider sl ≠ HitObject.slider slider := by
          intro hcon
          injection hcon with h1
          exact hss h1
        have h1 : 1 ≤ (objIds (.slider sl)).count c.id := by
          rw [← heq]
          exact one_le_count_objIds_id sl
        have h2 := count_listIds_pair c.id _ _ hne b.hitObjects hmemsl hmem
        have h3 := hcnt c.id
        omega
    · intro heq
      by_cases hss : sl = slider
      · subst hss
        have h1 := two_le_count_objIds_head_cp sl c hc heq
        have h2 := count_listIds_le c.id _ b.hitObjects hmemsl
        have h3 := hcnt c.id
        omega
      · have hne : HitObject.slider sl ≠ HitObject.slider slider := by
          intro hcon
          injection hcon with h1
          exact hss h1
        have h1 : 1 ≤ (objIds (.slider sl)).count c.id := by
          rw [← heq]
          exact one_le_count_objIds_head sl
        have h2 := count_listIds_pair c.id _ _ hne b.hitObjects hmemsl hmem
        have h3 := hcnt c.id
        omega
  · intro sp hmemsp heq
    have h1 : 1 ≤ (objIds (.spinner sp)).count c.id := by
      rw [← heq]
      exact one_le_count_objIds_spinner sp
    have hne : HitObject.spinner sp ≠ HitObject.slider slider := fun hcon =>
      HitObject.noConfusion hcon
    have h2 := count_listIds_pair c.id _ _ hne b.hitObjects hmemsp hmem
    have h3 := hcnt c.id
    omega
  · intro sl hmemsl hid cp hcpmem heq
    have hss : sl ≠ slider := fun hcon => hid (by rw [hcon])
    have hne : HitObject.slider sl ≠ HitObject.slider slider := by
      intro hcon
      injection hcon with h1
      exact hss h1
    have h1 : 1 ≤ (objIds (.slider sl)).count c.id := by
      rw [← heq]
      exact one_le_count_objIds_cp sl cp hcpmem
    have h2 := count_listIds_pair c.id _ _ hne b.hitObjects hmemsl hmem
    have h3 := hcnt c.id
    omega

/-! ## Claim C10: container-key lemmas and phase preservation -/

/-- `jsDel` only removes keys. -/
theorem mem_keys_jsDel {V : Type} (k x : String) :
    ∀ m : List (String × V), x ∈ (jsDel m k).map Prod.fst → x ∈ m.map Prod.fst := by
  intro m
  induction m with
  | nil => exact fun h => h
  | cons e rest ih =>
    intro h
    unfold jsDel at h
    split_ifs at h
    · simp only [List.map_cons]
      exact List.mem_cons_of_mem _ (ih h)
    · simp only [List.map_cons] at h ⊢
      rcases List.mem_cons.mp h with h1 | h2
      · exact List.mem_cons.mpr (Or.inl h1)
      · exact List.mem_cons.mpr (Or.inr (ih h2))

/-- The deleted key is gone from every entry of the result. -/
theorem not_mem_keys_jsDel_self {V : Type} (k : String) :
    ∀ m : List (String × V), k ∉ (jsDel m k).map Prod.fst := by
  intro m
  induction m with
  | nil => exact fun h => (List.not_mem_nil k) h
  | cons e rest ih =>
    unfold jsDel
    split_ifs with he
    · exact ih
    · simp only [List.map_cons]
      intro h
      rcases List.mem_cons.mp h with h1 | h2
      · exact he h1.symm
      · exact ih h2

/-- `jsSet` introduces at most the written key. -/
theorem mem_keys_jsSet {V : Type} (k x : String) (v : V) :
    ∀ m : List (String × V), x ∈ (jsSet m k v).map Prod.fst →
      x ∈ m.map Prod.fst ∨ x = k := by
  intro m
  induction m with
  | nil =>
    intro h
    simp only [jsSet, List.map_cons, List.map_nil] at h
    rcases List.mem_cons.mp h with h1 | h2
    · exact Or.inr h1
    · exact absurd h2 (List.not_mem_nil x)
  | cons e rest ih =>
    intro h
    unfold jsSet at h
    split_ifs at h with he
    · simp only [List.map_cons] at h
      rcases List.mem_cons.mp h with h1 | h2
      · exact Or.inr h1
      · exact Or.inl (by
          simp only [List.map_cons]
          exact List.mem_cons_of_mem _ h2)
    · simp only [List.map_cons] at h
      rcases List.mem_cons.mp h with h1 | h2
      · exact Or.inl (by simp [List.map_cons, h1])
      · rcases ih h2 with h3 | h3
        · exact Or.inl (by
            simp only [List.map_cons]
            exact List.mem_cons_of_mem _ h3)
        · exact Or.inr h3

/-- An indexed element is a member. -/
theorem mem_of_getElem_opt {α : Type _} :
    ∀ (l : List α) (i : Nat) (a : α), l[i]? = some a → a ∈ l := by
  intro l
  induction l with
  | nil =>
    intro i a h
    simp at h
  | cons x l ih =>
    intro i a h
    cases i with
    | zero =>
      simp only [List.getElem?_cons_zero] at h
      injection h with h1
      subst h1
      exact List.mem_cons_self x l
    | succ n =>
      simp only [List.getElem?_cons_succ] at h
      exact List.mem_cons_of_mem x (ih n a h)

/-- The spawn loop never touches the checkpoint map. -/
theorem spawnGo_checkPointState (st : GameState) (objs : List HitObject) :
    (spawnGo st objs).checkPointState = st.checkPointState := by
  induction objs generalizing st with
  | nil => rfl
  | cons obj rest ih =>
    unfold spawnGo
    split_ifs
    · rfl
    · cases obj <;> simp only [] <;> rw [ih]

/-- The spawn loop never touches the judged list. -/
theorem spawnGo_judgedObjects (st : GameState) (objs : List HitObject) :
    (spawnGo st objs).judgedObjects = st.judgedObjects := by
  induction objs generalizing st with
  | nil => rfl
  | cons obj rest ih =>
    unfold spawnGo
    split_ifs
    · rfl
    · cases obj <;> simp only [] <;> rw [ih]

/-- The spawn loop only adds alive slider ids. -/
theorem spawnGo_aliveSlider_mem (id : String) :
    ∀ (objs : List HitObject) (st : GameState),
      id ∈ st.aliveSliderIds → id ∈ (spawnGo st objs).aliveSliderIds := by
  intro objs
  induction objs with
  | nil => intro st h; exact h
  | cons obj rest ih =>
    intro st h
    unfold spawnGo
    split_ifs
    · exact h
    · cases obj with
      | circle c => exact ih _ h
      | slider s => exact ih _ (mem_jsAdd_of_mem _ _ _ h)
      | spinner sp => exact ih _ h

/-- `jsAdd` keeps a duplicate-free set duplicate-free. -/
theorem jsAdd_nodup (s : List String) (k : String) (h : s.Nodup) :
    (jsAdd s k).Nodup := by
  unfold jsAdd
  split_ifs with hk
  · exact h
  · refine List.Nodup.append h (List.nodup_singleton k) ?_
    intro a ha hak
    exact hk ((List.mem_singleton.mp hak) ▸ ha)

/-- The spawn loop keeps the alive slider set duplicate-free. -/
theorem spawnGo_aliveSlider_nodup :
    ∀ (objs : List HitObject) (st : GameState),
      st.aliveSliderIds.Nodup → (spawnGo st objs).aliveSliderIds.Nodup := by
  intro objs
  induction objs with
  | nil => intro st h; exact h
  | cons obj rest ih =>
    intro st h
    unfold spawnGo
    split_ifs
    · exact h
    · cases obj with
      | circle c => exact ih _ h
      | slider s => exact ih _ (jsAdd_nodup _ _ h)
      | spinner sp => exact ih _ h

/-- Circle resolution never touches the checkpoint map. -/
theorem handleHitCircle_checkPointState (ctx : NextFrameEvaluatorCtx)
    (tstc ntstc : Option ℚ) (id : String) (st : GameState) :
    (handleHitCircle ctx tstc ntstc id st).checkPointState = st.checkPointState := by
  rcases handleHitCircle_shape ctx tstc ntstc id st with heq | ⟨v, _, heq⟩ | ⟨v, _, _, heq⟩ <;>
    rw [heq] <;> rfl

/-- Circle resolution never touches the alive slider set. -/
theorem handleHitCircle_aliveSliderIds (ctx : NextFrameEvaluatorCtx)
    (tstc ntstc : Option ℚ) (id : String) (st : GameState) :
    (handleHitCircle ctx tstc ntstc id st).aliveSliderIds = st.aliveSliderIds := by
  rcases handleHitCircle_shape ctx tstc ntstc id st with heq | ⟨v, _, heq⟩ | ⟨v, _, _, heq⟩ <;>
    rw [heq] <;> rfl

/-- Circle resolution appends only the resolved circle id to the judged
list, so the count of an id resolving to no circle is unchanged. -/
theorem handleHitCircle_judgedCount (ctx : NextFrameEvaluatorCtx)
    (tstc ntstc : Option ℚ) (a y : String) (st : GameState)
    (hy : ∀ h : HitCircle, ctx.beatmap.getHitCircle a = some h → a ≠ y) :
    (handleHitCircle ctx tstc ntstc a st).judgedObjects.count y =
      st.judgedObjects.count y := by
  generalize hr : handleHitCircle ctx tstc ntstc a st = r
  unfold handleHitCircle at hr
  rcases hlook : ctx.beatmap.getHitCircle a with _ | circ <;> rw [hlook] at hr
  · rw [← hr]
  · have hay : a ≠ y := hy circ hlook
    simp only [] at hr
    split_ifs at hr <;> rw [← hr] <;>
      first
        | rfl
        | exact count_append_ne st.judgedObjects a y hay

theorem handleHitCircles_checkPointState (ctx : NextFrameEvaluatorCtx)
    (tstc ntstc : Option ℚ) (st : GameState) :
    (handleHitCircles ctx tstc ntstc st).checkPointState = st.checkPointState := by
  unfold handleHitCircles
  exact foldlPres _ _ (fun s a => handleHitCircle_checkPointState ctx tstc ntstc a s) _ st

theorem handleHitCircles_aliveSliderIds (ctx : NextFrameEvaluatorCtx)
    (tstc ntstc : Option ℚ) (st : GameState) :
    (handleHitCircles ctx tstc ntstc st).aliveSliderIds = st.aliveSliderIds := by
  unfold handleHitCircles
  exact foldlPres _ _ (fun s a => handleHitCircle_aliveSliderIds ctx tstc ntstc a s) _ st

theorem handleHitCircles_judgedCount (ctx : NextFrameEvaluatorCtx)
    (tstc ntstc : Option ℚ) (y : String) (st : GameState)
    (hy : ∀ (x : String) (h : HitCircle), ctx.beatmap.getHitCircle x = some h → x ≠ y) :
    (handleHitCircles ctx tstc ntstc st).judgedObjects.count y =
      st.judgedObjects.count y := by
  unfold handleHitCircles
  exact foldlPres (fun b => b.judgedObjects.count y) _
    (fun s a => handleHitCircle_judgedCount ctx tstc ntstc a y s (hy a)) _ st

/-- Slider finalization never touches the checkpoint map. -/
theorem finishSlider_checkPointState (ctx : NextFrameEvaluatorCtx) (id : String)
    (st : GameState) :
    (finishSlider ctx id st).checkPointState = st.checkPointState := by
  unfold finishSlider
  cases ctx.beatmap.getSlider id <;> simp only [] <;> try rfl
  split_ifs <;> rfl

/-- Slider finalization appends only its head id and slider id. -/
theorem finishSlider_judgedCount (ctx : NextFrameEvaluatorCtx) (a y : String)
    (st : GameState)
    (hy : ∀ sl : Slider, ctx.beatmap.getSlider a = some sl →
      sl.id ≠ y ∧ sl.head.id ≠ y) :
    (finishSlider ctx a st).judgedObjects.count y = st.judgedObjects.count y := by
  unfold finishSlider
  rcases hl : ctx.beatmap.getSlider a with _ | sl
  · rfl
  · simp only []
    split_ifs with hhead
    · show (st.judgedObjects ++ [sl.id]).count y = st.judgedObjects.count y
      exact count_append_ne st.judgedObjects sl.id y (hy sl hl).1
    · show ((st.judgedObjects ++ [sl.head.id]) ++ [sl.id]).count y =
        st.judgedObjects.count y
      rw [count_append_ne _ sl.id y (hy sl hl).1]
      exact count_append_ne st.judgedObjects sl.head.id y (hy sl hl).2

/-- On a resolvable id, slider finalization deletes that id's pending
checkpoint entry. -/
theorem finishSlider_nextCheckPointIndex (ctx : NextFrameEvaluatorCtx)
    (id : String) (st : GameState) (sl : Slider)
    (hl : ctx.beatmap.getSlider id = some sl) :
    (finishSlider ctx id st).nextCheckPointIndex = jsDel st.nextCheckPointIndex id := by
  unfold finishSlider
  rw [hl]
  simp only []
  split_ifs <;> rfl

/-- Slider finalization never adds pending-checkpoint keys. -/
theorem finishSlider_keys_out (ctx : NextFrameEvaluatorCtx) (a x : String)
    (st : GameState) (hx : x ∉ st.nextCheckPointIndex.map Prod.fst) :
    x ∉ (finishSlider ctx a st).nextCheckPointIndex.map Prod.fst := by
  unfold finishSlider
  rcases hl : ctx.beatmap.getSlider a with _ | sl
  · exact hx
  · simp only []
    split_ifs <;> exact fun h => hx (mem_keys_jsDel a x _ h)

/-- Finalizing one slider leaves a different slider's recorded judgement
untouched. -/
theorem finishSlider_sliderJudgement_ne (ctx : NextFrameEvaluatorCtx)
    (a x : String) (st : GameState) (hax : a ≠ x) :
    jsGet (finishSlider ctx a st).sliderJudgement x = jsGet st.sliderJudgement x := by
  unfold finishSlider
  rcases hl : ctx.beatmap.getSlider a with _ | sl
  · rfl
  · simp only []
    split_ifs <;> exact jsGet_set_ne st.sliderJudgement a x _ (Ne.symm hax)

/-- `recordedHitIn` only reads the checkpoint map. -/
theorem countP_recordedHitIn_congr (st1 st2 : GameState)
    (h : st1.checkPointState = st2.checkPointState) (cps : List SliderCheckPoint) :
    cps.countP (recordedHitIn st1) = cps.countP (recordedHitIn st2) :=
  List.countP_congr (fun c _ => by unfold recordedHitIn; rw [h])

/-- `finishSlider` records, for the looked-up slider, the ratio verdict over
`total = len(checkPoints) + 1` and `hit = headBit + recorded checkpoint
hits`, where the head contributes at most one. -/
theorem finishSlider_judgement_bit (ctx : NextFrameEvaluatorCtx) (id : String)
    (slider : Slider) (st : GameState)
    (hs : ctx.beatmap.getSlider id = some slider) :
    ∃ headBit : Nat, headBit ≤ 1 ∧
      jsGet (finishSlider ctx id st).sliderJudgement id =
        some (sliderVerdictSpec (slider.checkPoints.length + 1)
          (headBit + slider.checkPoints.countP (recordedHitIn st))) := by
  refine ⟨if headRecordedNonMiss (finishSlider ctx id st) slider then 1 else 0,
    by split_ifs <;> omega, ?_⟩
  by_cases hhead : jsGet st.hitCircleState slider.head.id = none
  · simp only [finishSlider, hs, hhead, Option.isSome_none, Bool.false_eq_true,
      if_false]
    rw [jsGet_set_self]
    congr 1
    rw [checkpointFold_eq_countP, sliderJudgementBasedOnCheckpoints_eq_spec]
    have hcp : ∀ cps : List SliderCheckPoint,
        cps.countP (fun c =>
          match jsGet (finishHitCircle slider.head.id
            ⟨slider.endTime, .MISS, some .SLIDER_FINISHED_FASTER⟩ st).checkPointState c.id with
          | some cs => cs.hit
          | none => false) = cps.countP (recordedHitIn st) := fun cps => rfl
    rw [hcp]
    congr 1
    simp [headRecordedNonMiss, finishHitCircle, jsGet_set_self]
  · have hsome : (jsGet st.hitCircleState slider.head.id).isSome = true := by
      cases hx : jsGet st.hitCircleState slider.head.id with
      | none => exact absurd hx hhead
      | some j => rfl
    simp only [finishSlider, hs, hsome, if_true]
    rw [jsGet_set_self]
    congr 1
    rw [checkpointFold_eq_countP, sliderJudgementBasedOnCheckpoints_eq_spec]
    have hcp : ∀ cps : List SliderCheckPoint,
        cps.countP (fun c =>
          match jsGet st.checkPointState c.id with
          | some cs => cs.hit
          | none => false) = cps.countP (recordedHitIn st) := fun cps => rfl
    rw [hcp]
    congr 1
    cases hj : jsGet st.hitCircleState slider.head.id with
    | none => exact absurd hj hhead
    | some j =>
      simp only [headRecordedNonMiss, finishSlider, hs, hsome, if_true, hj]
      cases htype : j.type <;> simp

/-- A judgment-fold suffix that never reaches `sid` preserves the checkpoint
map, the judged count of `y`, `sid`'s recorded judgement, and `sid`'s
absence from the pending-checkpoint keys. -/
theorem judgmentFold_preserve (ctx : NextFrameEvaluatorCtx) (sid y : String)
    (hy : ∀ (a : String) (sl : Slider), ctx.beatmap.getSlider a = some sl →
      sl.id ≠ y ∧ sl.head.id ≠ y) :
    ∀ (l : List String), sid ∉ l → ∀ st : GameState,
      (l.foldl (fun s i =>
          match ctx.beatmap.getSlider i with
          | none => s
          | some sl => if sl.endTime ≤ s.currentTime then finishSlider ctx i s else s)
        st).checkPointState = st.checkPointState ∧
      (l.foldl (fun s i =>
          match ctx.beatmap.getSlider i with
          | none => s
          | some sl => if sl.endTime ≤ s.currentTime then finishSlider ctx i s else s)
        st).judgedObjects.count y = st.judgedObjects.count y ∧
      jsGet (l.foldl (fun s i =>
          match ctx.beatmap.getSlider i with
          | none => s
          | some sl => if sl.endTime ≤ s.currentTime then finishSlider ctx i s else s)
        st).sliderJudgement sid = jsGet st.sliderJudgement sid ∧
      (sid ∉ st.nextCheckPointIndex.map Prod.fst →
        sid ∉ (l.foldl (fun s i =>
            match ctx.beatmap.getSlider i with
            | none => s
            | some sl => if sl.endTime ≤ s.currentTime then finishSlider ctx i s else s)
          st).nextCheckPointIndex.map Prod.fst) := by
  intro l
  induction l with
  | nil => intro _ st; exact ⟨rfl, rfl, rfl, fun h => h⟩
  | cons a l ih =>
    intro hns st
    have hasid : a ≠ sid := fun h => hns (h ▸ List.mem_cons_self a l)
    have hnsl : sid ∉ l := fun h => hns (List.mem_cons_of_mem a h)
    have hstep :
        ((fun (s : GameState) (i : String) =>
          match ctx.beatmap.getSlider i with
          | none => s
          | some sl => if sl.endTime ≤ s.currentTime then finishSlider ctx i s else s)
            st a).checkPointState = st.checkPointState ∧
        ((fun (s : GameState) (i : String) =>
          match ctx.beatmap.getSlider i with
          | none => s
          | some sl => if sl.endTime ≤ s.currentTime then finishSlider ctx i s else s)
            st a).judgedObjects.count y = st.judgedObjects.count y ∧
        jsGet ((fun (s : GameState) (i : String) =>
          match ctx.beatmap.getSlider i with
          | none => s
          | some sl => if sl.endTime ≤ s.currentTime then finishSlider ctx i s else s)
            st a).sliderJudgement sid = jsGet st.sliderJudgement sid ∧
        (sid ∉ st.nextCheckPointIndex.map Prod.fst →
          sid ∉ ((fun (s : GameState) (i : String) =>
            match ctx.beatmap.getSlider i with
            | none => s
            | some sl => if sl.endTime ≤ s.currentTime then finishSlider ctx i s else s)
              st a).nextCheckPointIndex.map Prod.fst) := by
      rcases hl : ctx.beatmap.getSlider a with _ | sl
      · simp only [hl]
        exact ⟨trivial, trivial, trivial, fun h => h⟩
      · simp only [hl]
        split_ifs
        · exact ⟨finishSlider_checkPointState ctx a st,
            finishSlider_judgedCount ctx a y st (hy a),
            finishSlider_sliderJudgement_ne ctx a sid st hasid,
            fun hk => finishSlider_keys_out ctx a sid st hk⟩
        · exact ⟨rfl, rfl, rfl, fun h => h⟩
    obtain ⟨p1, p2, p3, p4⟩ := ih hnsl _
    simp only [List.foldl_cons]
    exact ⟨p1.trans hstep.1, p2.trans hstep.2.1, p3.trans hstep.2.2.1,
      fun hk => p4 (hstep.2.2.2 hk)⟩

/-- When the judgment fold reaches `sid` (present, first occurrence unique),
the slider is finalized: the checkpoint map is untouched, the judged count
of `y` is unchanged, `sid` leaves the pending-checkpoint keys, and the ratio
verdict computed from the fold's entry state is recorded. -/
theorem judgmentFold_main (ctx : NextFrameEvaluatorCtx) (sid y : String)
    (slider : Slider) (hsl : ctx.beatmap.getSlider sid = some slider)
    (hy : ∀ (a : String) (sl : Slider), ctx.beatmap.getSlider a = some sl →
      sl.id ≠ y ∧ sl.head.id ≠ y) :
    ∀ (l : List String), l.Nodup → sid ∈ l → ∀ st : GameState,
      slider.endTime ≤ st.currentTime →
      (l.foldl (fun s i =>
          match ctx.beatmap.getSlider i with
          | none => s
          | some sl => if sl.endTime ≤ s.currentTime then finishSlider ctx i s else s)
        st).checkPointState = st.checkPointState ∧
      (l.foldl (fun s i =>
          match ctx.beatmap.getSlider i with
          | none => s
          | some sl => if sl.endTime ≤ s.currentTime then finishSlider ctx i s else s)
        st).judgedObjects.count y = st.judgedObjects.count y ∧
      sid ∉ (l.foldl (fun s i =>
          match ctx.beatmap.getSlider i with
          | none => s
          | some sl => if sl.endTime ≤ s.currentTime then finishSlider ctx i s else s)
        st).nextCheckPointIndex.map Prod.fst ∧
      ∃ headBit : Nat, headBit ≤ 1 ∧
        jsGet (l.foldl (fun s i =>
            match ctx.beatmap.getSlider i with
            | none => s
            | some sl => if sl.endTime ≤ s.currentTime then finishSlider ctx i s else s)
          st).sliderJudgement sid =
          some (sliderVerdictSpec (slider.checkPoints.length + 1)
            (headBit + slider.checkPoints.countP (recordedHitIn st))) := by
  intro l
  induction l with
  | nil => intro _ hmem; cases hmem
  | cons a l ih =>
    intro hnd hmem st hend2
    by_cases hasid : a = sid
    · subst hasid
      have hns : a ∉ l := (List.nodup_cons.mp hnd).1
      simp only [List.foldl_cons, hsl]
      rw [if_pos hend2]
      obtain ⟨p1, p2, p3, p4⟩ := judgmentFold_preserve ctx a y hy l hns
        (finishSlider ctx a st)
      refine ⟨p1.trans (finishSlider_checkPointState ctx a st),
        p2.trans (finishSlider_judgedCount ctx a y st (hy a)),
        p4 ?_, ?_⟩
      · rw [finishSlider_nextCheckPointIndex ctx a st slider hsl]
        exact not_mem_keys_jsDel_self a st.nextCheckPointIndex
      · obtain ⟨hb, hble, hbej⟩ := finishSlider_judgement_bit ctx a slider st hsl
        exact ⟨hb, hble, p3.trans hbej⟩
    · have hmeml : sid ∈ l := by
        rcases List.mem_cons.mp hmem with h1 | h1
        · exact absurd h1.symm hasid
        · exact h1
      have hndl : l.Nodup := (List.nodup_cons.mp hnd).2
      have hstep :
          ((fun (s : GameState) (i : String) =>
            match ctx.beatmap.getSlider i with
            | none => s
            | some sl => if sl.endTime ≤ s.currentTime then finishSlider ctx i s else s)
              st a).currentTime = st.currentTime ∧
          ((fun (s : GameState) (i : String) =>
            match ctx.beatmap.getSlider i with
            | none => s
            | some sl => if sl.endTime ≤ s.currentTime then finishSlider ctx i s else s)
              st a).checkPointState = st.checkPointState ∧
          ((fun (s : GameState) (i : String) =>
            match ctx.beatmap.getSlider i with
            | none => s
            | some sl => if sl.endTime ≤ s.currentTime then finishSlider ctx i s else s)
              st a).judgedObjects.count y = st.judgedObjects.count y := by
        rcases hl : ctx.beatmap.getSlider a with _ | sl
        · simp only [hl]
          exact ⟨trivial, trivial, trivial⟩
        · simp only [hl]
          split_ifs
          · exact ⟨finishSlider_currentTime ctx a st,
              finishSlider_checkPointState ctx a st,
              finishSlider_judgedCount ctx a y st (hy a)⟩
          · exact ⟨rfl, rfl, rfl⟩
      rw [List.foldl_cons]
      obtain ⟨i1, i2, i3, hb, hble, i4⟩ := ih hndl hmeml _ (by rw [hstep.1]; exact hend2)
      refine ⟨i1.trans hstep.2.1, i2.trans hstep.2.2, i3, hb, hble, ?_⟩
      rw [← countP_recordedHitIn_congr _ st hstep.2.1 slider.checkPoints]
      exact i4

/-- A scan that selects a slider id selects a key of the entry list. -/
theorem scan_mem (ctx : NextFrameEvaluatorCtx) (now : ℚ)
    (entries : List (String × Nat)) (sid : String)
    (h : scanEarliestCheckPoint ctx now entries = some sid) :
    sid ∈ entries.map Prod.fst := by
  unfold scanEarliestCheckPoint at h
  rcases scanFold_spec ctx now entries none (1000000000000000000 : ℚ) with
    ⟨hfold, _⟩ | ⟨i, e, t, hget, _, _, hfold, _, _⟩
  · rw [hfold] at h
    simp at h
  · rw [hfold] at h
    have h2 : e.1 = sid := by
      have h3 : some e.1 = some sid := h
      injection h3
    have he : e ∈ entries := mem_of_getElem_opt entries i e hget
    exact h2 ▸ List.mem_map_of_mem Prod.fst he

/-- One checkpoint iteration never touches the slider judgement map. -/
theorem checkPointLoopStep_sliderJudgement (ctx : NextFrameEvaluatorCtx) (pt : ℚ)
    (pp : Position) (ops : List ℚ) (sid : String) (st : GameState) :
    (checkPointLoopStep ctx pt pp ops sid st).sliderJudgement = st.sliderJudgement := by
  unfold checkPointLoopStep
  cases ctx.beatmap.getSlider sid <;> simp only [] <;> try rfl
  cases jsGet st.nextCheckPointIndex sid <;> simp only [] <;> try rfl
  split <;> try rfl
  split_ifs <;> rfl

theorem checkPointLoop_sliderJudgement (ctx : NextFrameEvaluatorCtx) (pt : ℚ)
    (pp : Position) (ops : List ℚ) :
    ∀ (fuel : Nat) (st : GameState),
      (checkPointLoop ctx pt pp ops fuel st).sliderJudgement = st.sliderJudgement := by
  intro fuel
  induction fuel with
  | zero => intro st; rfl
  | succ n ih =>
    intro st
    unfold checkPointLoop
    cases scanEarliestCheckPoint ctx st.currentTime st.nextCheckPointIndex <;>
      simp only [] <;> try rfl
    rw [ih, checkPointLoopStep_sliderJudgement]

theorem handleSliderCheckPoints_sliderJudgement (ctx : NextFrameEvaluatorCtx) (pt : ℚ)
    (pp : Position) (ops : List ℚ) (st : GameState) :
    (handleSliderCheckPoints ctx pt pp ops st).sliderJudgement = st.sliderJudgement :=
  checkPointLoop_sliderJudgement ctx pt pp ops _ st

/-- One checkpoint iteration for a slider other than `sidT` records only that
slider's own checkpoint ids: a foreign id `y` stays unrecorded and uncounted,
and `sidT` stays outside the pending keys. -/
theorem checkPointLoopStep_avoid (ctx : NextFrameEvaluatorCtx) (pt : ℚ)
    (pp : Position) (ops : List ℚ) (sid1 sidT y : String) (st : GameState)
    (hne : sid1 ≠ sidT)
    (hT : ∀ sl : Slider, ctx.beatmap.getSlider sid1 = some sl →
      ∀ cp ∈ sl.checkPoints, cp.id ≠ y) :
    jsGet (checkPointLoopStep ctx pt pp ops sid1 st).checkPointState y =
      jsGet st.checkPointState y ∧
    (checkPointLoopStep ctx pt pp ops sid1 st).judgedObjects.count y =
      st.judgedObjects.count y ∧
    (sidT ∉ st.nextCheckPointIndex.map Prod.fst →
      sidT ∉ (checkPointLoopStep ctx pt pp ops sid1 st).nextCheckPointIndex.map Prod.fst) := by
  unfold checkPointLoopStep
  rcases hl : ctx.beatmap.getSlider sid1 with _ | sl
  · exact ⟨rfl, rfl, fun h => h⟩
  · simp only []
    rcases hidx : jsGet st.nextCheckPointIndex sid1 with _ | index
    · exact ⟨rfl, rfl, fun h => h⟩
    · simp only []
      rcases hcp : sl.checkPoints[index]? with _ | checkPoint
      · exact ⟨rfl, rfl, fun h => h⟩
      · simp only []
        have hcpy : checkPoint.id ≠ y :=
          hT sl hl checkPoint (mem_of_getElem_opt _ _ _ hcp)
        have hslid : sl.id = sid1 := (getSlider_mem ctx.beatmap sid1 sl hl).1
        split_ifs with hlen
        · refine ⟨?_, ?_, ?_⟩
          · show jsGet (jsSet st.checkPointState checkPoint.id _) y = _
            exact jsGet_set_ne _ _ _ _ (Ne.symm hcpy)
          · show (st.judgedObjects ++ [checkPoint.id]).count y = _
            exact count_append_ne _ _ _ hcpy
          · intro hk hmemk
            rcases mem_keys_jsSet sl.id sidT (index + 1) _ hmemk with h1 | h1
            · exact hk h1
            · exact hne ((h1.trans hslid).symm)
        · refine ⟨?_, ?_, ?_⟩
          · show jsGet (jsSet st.checkPointState checkPoint.id _) y = _
            exact jsGet_set_ne _ _ _ _ (Ne.symm hcpy)
          · show (st.judgedObjects ++ [checkPoint.id]).count y = _
            exact count_append_ne _ _ _ hcpy
          · intro hk hmemk
            exact hk (mem_keys_jsDel sl.id sidT _ hmemk)

/-- While `sidT` is outside the pending keys, the checkpoint loop never
records or appends a checkpoint id `y` owned by `sidT`. -/
theorem checkPointLoop_avoid (ctx : NextFrameEvaluatorCtx) (pt : ℚ)
    (pp : Position) (ops : List ℚ) (sidT y : String)
    (hT : ∀ sid1 : String, sid1 ≠ sidT → ∀ sl : Slider,
      ctx.beatmap.getSlider sid1 = some sl → ∀ cp ∈ sl.checkPoints, cp.id ≠ y) :
    ∀ (fuel : Nat) (st : GameState),
      sidT ∉ st.nextCheckPointIndex.map Prod.fst →
      jsGet (checkPointLoop ctx pt pp ops fuel st).checkPointState y =
        jsGet st.checkPointState y ∧
      (checkPointLoop ctx pt pp ops fuel st).judgedObjects.count y =
        st.judgedObjects.count y := by
  intro fuel
  induction fuel with
  | zero => intro st _; exact ⟨rfl, rfl⟩
  | succ n ih =>
    intro st hk
    unfold checkPointLoop
    rcases hscan : scanEarliestCheckPoint ctx st.currentTime st.nextCheckPointIndex with
      _ | sid1
    · exact ⟨rfl, rfl⟩
    · simp only []
      have hmm := scan_mem ctx st.currentTime st.nextCheckPointIndex sid1 hscan
      have hne : sid1 ≠ sidT := fun h => hk (h ▸ hmm)
      obtain ⟨s1, s2, s3⟩ := checkPointLoopStep_avoid ctx pt pp ops sid1 sidT y st hne
        (fun sl hl => hT sid1 hne sl hl)
      obtain ⟨r1, r2⟩ := ih (checkPointLoopStep ctx pt pp ops sid1 st) (s3 hk)
      exact ⟨r1.trans s1, r2.trans s2⟩

/-- Slider-body tracking never touches the checkpoint map. -/
theorem updateSliderBodyTracking_checkPointState (ctx : NextFrameEvaluatorCtx)
    (st : GameState) :
    (updateSliderBodyTracking ctx st).checkPointState = st.checkPointState := by
  unfold updateSliderBodyTracking
  refine foldlPres _ _ (fun s a => ?_) _ st
  cases ctx.beatmap.getSlider a <;> rfl

/-- Slider-body tracking never touches the judged list. -/
theorem updateSliderBodyTracking_judgedObjects (ctx : NextFrameEvaluatorCtx)
    (st : GameState) :
    (updateSliderBodyTracking ctx st).judgedObjects = st.judgedObjects := by
  unfold updateSliderBodyTracking
  refine foldlPres _ _ (fun s a => ?_) _ st
  cases ctx.beatmap.getSlider a <;> rfl

/-- Slider-body tracking never touches the slider judgement map. -/
theorem updateSliderBodyTracking_sliderJudgement (ctx : NextFrameEvaluatorCtx)
    (st : GameState) :
    (updateSliderBodyTracking ctx st).sliderJudgement = st.sliderJudgement := by
  unfold updateSliderBodyTracking
  refine foldlPres _ _ (fun s a => ?_) _ st
  cases ctx.beatmap.getSlider a <;> rfl

/-- Spinner evaluation never touches the checkpoint map. -/
theorem handleSpinners_checkPointState (ctx : NextFrameEvaluatorCtx) (st : GameState) :
    (handleSpinners ctx st).checkPointState = st.checkPointState := by
  unfold handleSpinners
  refine foldlPres _ _ (fun s a => ?_) _ st
  cases ctx.beatmap.getSpinner a <;> simp only [] <;> try rfl
  split_ifs <;> rfl

/-- Spinner evaluation never touches the slider judgement map. -/
theorem handleSpinners_sliderJudgement (ctx : NextFrameEvaluatorCtx) (st : GameState) :
    (handleSpinners ctx st).sliderJudgement = st.sliderJudgement := by
  unfold handleSpinners
  refine foldlPres _ _ (fun s a => ?_) _ st
  cases ctx.beatmap.getSpinner a <;> simp only [] <;> try rfl
  split_ifs <;> rfl

/-- Spinner evaluation appends only resolvable spinner ids. -/
theorem handleSpinners_judgedCount (ctx : NextFrameEvaluatorCtx) (y : String)
    (st : GameState)
    (hy : ∀ (x : String) (sp : Spinner), ctx.beatmap.getSpinner x = some sp → x ≠ y) :
    (handleSpinners ctx st).judgedObjects.count y = st.judgedObjects.count y := by
  unfold handleSpinners
  refine foldlPres (fun b => b.judgedObjects.count y) _ (fun s a => ?_) _ st
  rcases hl : ctx.beatmap.getSpinner a with _ | sp
  · rfl
  · simp only []
    split_ifs
    · exact count_append_ne s.judgedObjects a y (hy a sp hl)
    · rfl

/-- C10: in the advance call in which an alive slider `sid` is finalized
(`slider.endTime ≤ frame.time`), every checkpoint `c` of that slider not
already recorded in `checkPointState` (i) stays unrecorded after the call,
(ii) is never appended to `judgedObjects`, and (iii) is counted as not hit in
the slider's recorded ratio verdict — `handleSliderJudgment` runs before
`handleSliderCheckPoints` and `finishSlider` deletes the slider's
`nextCheckPointIndex` entry, so checkpoint evaluation can no longer select
it.  The beatmap is assumed id-clean (`(beatmapIds ctx.beatmap).Nodup`,
the spec's "stable string ids") and the alive-slider set duplicate-free. -/
theorem C10_finalized_slider_checkpoints_dropped
    (ctx : NextFrameEvaluatorCtx) (s : GameState) (f : ReplayFrame)
    (sid : String) (slider : Slider) (c : SliderCheckPoint)
    (hnd : (beatmapIds ctx.beatmap).Nodup)
    (hsl : ctx.beatmap.getSlider sid = some slider)
    (halive : sid ∈ s.aliveSliderIds)
    (hnodup : s.aliveSliderIds.Nodup)
    (hend : slider.endTime ≤ f.time)
    (hc : c ∈ slider.checkPoints)
    (hun : jsGet s.checkPointState c.id = none) :
    jsGet (evaluateNextFrameMutated ctx s f).checkPointState c.id = none ∧
    (evaluateNextFrameMutated ctx s f).judgedObjects.count c.id =
      s.judgedObjects.count c.id ∧
    ∃ headBit : Nat, headBit ≤ 1 ∧
      jsGet (evaluateNextFrameMutated ctx s f).sliderJudgement sid =
        some (sliderVerdictSpec (slider.checkPoints.length + 1)
          (headBit + slider.checkPoints.countP (recordedHitIn s))) := by
  have hmem : HitObject.slider slider ∈ ctx.beatmap.hitObjects :=
    (getSlider_mem ctx.beatmap sid slider hsl).2
  have hsid : slider.id = sid := (getSlider_mem ctx.beatmap sid slider hsl).1
  obtain ⟨hCirc, hSlid, hSpin, hOther⟩ :=
    cp_id_distinct ctx.beatmap hnd slider hmem c hc
  have hyC : ∀ (x : String) (h : HitCircle),
      ctx.beatmap.getHitCircle x = some h → x ≠ c.id := by
    intro x h hx
    obtain ⟨hid, hmem2⟩ := getHitCircle_mem ctx.beatmap x h hx
    rcases hmem2 with hm | ⟨sl, hm, hh⟩
    · exact hid ▸ hCirc h hm
    · rw [← hid, ← hh]
      exact (hSlid sl hm).2
  have hyS : ∀ (a : String) (sl : Slider), ctx.beatmap.getSlider a = some sl →
      sl.id ≠ c.id ∧ sl.head.id ≠ c.id := fun a sl ha =>
    hSlid sl (getSlider_mem ctx.beatmap a sl ha).2
  have hySp : ∀ (x : String) (sp : Spinner),
      ctx.beatmap.getSpinner x = some sp → x ≠ c.id := by
    intro x sp hx
    obtain ⟨hid, hm⟩ := getSpinner_mem ctx.beatmap x sp hx
    exact hid ▸ hSpin sp hm
  have hyT : ∀ sid1 : String, sid1 ≠ sid → ∀ sl : Slider,
      ctx.beatmap.getSlider sid1 = some sl → ∀ cp ∈ sl.checkPoints, cp.id ≠ c.id := by
    intro sid1 hne sl hl cp hcp
    obtain ⟨hid, hm⟩ := getSlider_mem ctx.beatmap sid1 sl hl
    exact hOther sl hm (fun h => hne (hid.symm.trans (h.trans hsid))) cp hcp
  have key : ∀ (st2 : GameState) (tstc ntstc : Option ℚ) (pt : ℚ) (pp : Position)
      (ops : List ℚ),
      st2.checkPointState = s.checkPointState →
      st2.judgedObjects.count c.id = s.judgedObjects.count c.id →
      st2.currentTime = f.time →
      sid ∈ st2.aliveSliderIds →
      st2.aliveSliderIds.Nodup →
      (jsGet (handleSpinners ctx (updateSliderBodyTracking ctx
          (handleSliderCheckPoints ctx pt pp ops
            (handleSliderJudgment ctx
              (handleHitCircles ctx tstc ntstc st2))))).checkPointState c.id = none ∧
       (handleSpinners ctx (updateSliderBodyTracking ctx
          (handleSliderCheckPoints ctx pt pp ops
            (handleSliderJudgment ctx
              (handleHitCircles ctx tstc ntstc st2))))).judgedObjects.count c.id =
         s.judgedObjects.count c.id ∧
       ∃ headBit : Nat, headBit ≤ 1 ∧
         jsGet (handleSpinners ctx (updateSliderBodyTracking ctx
            (handleSliderCheckPoints ctx pt pp ops
              (handleSliderJudgment ctx
                (handleHitCircles ctx tstc ntstc st2))))).sliderJudgement sid =
           some (sliderVerdictSpec (slider.checkPoints.length + 1)
             (headBit + slider.checkPoints.countP (recordedHitIn s)))) := by
    intro st2 tstc ntstc pt pp ops hcps2 hcount2 htime2 hmem2 hnd2
    have h3cps : (handleHitCircles ctx tstc ntstc st2).checkPointState =
        s.checkPointState :=
      (handleHitCircles_checkPointState ctx tstc ntstc st2).trans hcps2
    have h3cnt : (handleHitCircles ctx tstc ntstc st2).judgedObjects.count c.id =
        s.judgedObjects.count c.id :=
      (handleHitCircles_judgedCount ctx tstc ntstc c.id st2 hyC).trans hcount2
    have h3time : (handleHitCircles ctx tstc ntstc st2).currentTime = f.time :=
      (handleHitCircles_currentTime ctx tstc ntstc st2).trans htime2
    have h3mem : sid ∈ (handleHitCircles ctx tstc ntstc st2).aliveSliderIds := by
      rw [handleHitCircles_aliveSliderIds]
      exact hmem2
    have h3nd : (handleHitCircles ctx tstc ntstc st2).aliveSliderIds.Nodup := by
      rw [handleHitCircles_aliveSliderIds]
      exact hnd2
    obtain ⟨h4cps, h4cnt, h4keys, hb, hble, h4jdg⟩ :=
      judgmentFold_main ctx sid c.id slider hsl hyS
        (handleHitCircles ctx tstc ntstc st2).aliveSliderIds h3nd h3mem
        (handleHitCircles ctx tstc ntstc st2) (by rw [h3time]; exact hend)
    have h4cpsJ : (handleSliderJudgment ctx
        (handleHitCircles ctx tstc ntstc st2)).checkPointState =
        s.checkPointState := h4cps.trans h3cps
    have h4cntJ : (handleSliderJudgment ctx
        (handleHitCircles ctx tstc ntstc st2)).judgedObjects.count c.id =
        s.judgedObjects.count c.id := h4cnt.trans h3cnt
    have h4keysJ : sid ∉ (handleSliderJudgment ctx
        (handleHitCircles ctx tstc ntstc st2)).nextCheckPointIndex.map Prod.fst :=
      h4keys
    have h4jdgS : jsGet (handleSliderJudgment ctx
        (handleHitCircles ctx tstc ntstc st2)).sliderJudgement sid =
        some (sliderVerdictSpec (slider.checkPoints.length + 1)
          (hb + slider.checkPoints.countP (recordedHitIn s))) := by
      rw [← countP_recordedHitIn_congr (handleHitCircles ctx tstc ntstc st2) s h3cps
        slider.checkPoints]
      exact h4jdg
    have h4un : jsGet (handleSliderJudgment ctx
        (handleHitCircles ctx tstc ntstc st2)).checkPointState c.id = none := by
      rw [h4cpsJ]
      exact hun
    obtain ⟨h5cps, h5cnt⟩ := checkPointLoop_avoid ctx pt pp ops sid c.id hyT
      (cpMeasure ctx (handleSliderJudgment ctx
        (handleHitCircles ctx tstc ntstc st2)).nextCheckPointIndex)
      (handleSliderJudgment ctx (handleHitCircles ctx tstc ntstc st2)) h4keysJ
    refine ⟨?_, ?_, hb, hble, ?_⟩
    · rw [handleSpinners_checkPointState, updateSliderBodyTracking_checkPointState]
      exact h5cps.trans h4un
    · rw [handleSpinners_judgedCount ctx c.id _ hySp,
        updateSliderBodyTracking_judgedObjects]
      exact h5cnt.trans h4cntJ
    · rw [handleSpinners_sliderJudgement, updateSliderBodyTracking_sliderJudgement,
        handleSliderCheckPoints_sliderJudgement]
      exact h4jdgS
  unfold evaluateNextFrameMutated
  exact key _ _ _ _ _ _
    (spawnGo_checkPointState _ _)
    (congrArg (List.count c.id) (spawnGo_judgedObjects _ _))
    (spawnGo_currentTime _ _)
    (spawnGo_aliveSlider_mem sid _ _ halive)
    (spawnGo_aliveSlider_nodup _ _ hnodup)

/-- C10 witness: the one-slider fixture advanced past its end time at
t = 500; its unrecorded tail checkpoint is never recorded, never judged,
and counted as not hit in the recorded verdict. -/
theorem C10_witness :
    jsGet (evaluateNextFrameMutated ctxC10 stC10 frameC10).checkPointState cpC10.id =
      none ∧
    (evaluateNextFrameMutated ctxC10 stC10 frameC10).judgedObjects.count cpC10.id =
      stC10.judgedObjects.count cpC10.id ∧
    ∃ headBit : Nat, headBit ≤ 1 ∧
      jsGet (evaluateNextFrameMutated ctxC10 stC10 frameC10).sliderJudgement "s" =
        some (sliderVerdictSpec (sliderC10.checkPoints.length + 1)
          (headBit + sliderC10.checkPoints.countP (recordedHitIn stC10))) :=
  C10_finalized_slider_checkpoints_dropped ctxC10 stC10 frameC10 "s" sliderC10 cpC10
    (by decide) rfl (by decide) (by decide) (by decide)
    (List.mem_singleton.mpr rfl) rfl
